import Mathlib

/-!
Verification development for the termquiz quiz runner.

The Rust sources are shallowly embedded: pure functions become Lean
functions, the mutable `AppState` becomes a record threaded through the
operations, and the markdown event loop of `parser.rs` becomes a fold
over an explicit event list (`pulldown_cmark`, the external markdown
tokenizer, produces that event stream in the real program).  Rust string
operations are modelled over `List Char`; byte positions coincide with
character positions for the ASCII inputs the claims exercise, and
`char::is_whitespace` is modelled by its ASCII fragment.  Machine
integers (`u32`, `u64`) are modelled as `Nat` with the parse functions
enforcing the corresponding upper bounds, as Rust `str::parse` does.
-/

namespace Termquiz

instance [DecidableEq ε] [DecidableEq α] : DecidableEq (Except ε α) := fun x y =>
  match x, y with
  | .ok a, .ok b =>
    if h : a = b then isTrue (by rw [h]) else
      isFalse (by intro hh; cases hh; exact h rfl)
  | .error a, .error b =>
    if h : a = b then isTrue (by rw [h]) else
      isFalse (by intro hh; cases hh; exact h rfl)
  | .ok _, .error _ => isFalse (by intro hh; cases hh)
  | .error _, .ok _ => isFalse (by intro hh; cases hh)

/-! ## Rust string primitives (modelled over `List Char`) -/

/-- ASCII fragment of Rust `char::is_whitespace`. -/
def isWs (c : Char) : Bool :=
  c = ' ' || c = '\t' || c = '\n' || c = '\r'

def trimLeftC : List Char → List Char
  | [] => []
  | c :: cs => if isWs c then trimLeftC cs else c :: cs

def trimRightC (cs : List Char) : List Char :=
  (trimLeftC cs.reverse).reverse

/-- Model of Rust `str::trim`. -/
def trimC (cs : List Char) : List Char :=
  trimRightC (trimLeftC cs)

def rsTrim (s : String) : String :=
  ⟨trimC s.data⟩

/-- Model of Rust `str::starts_with` on char lists. -/
def startsWithC : List Char → List Char → Bool
  | _, [] => true
  | [], _ :: _ => false
  | c :: cs, p :: ps => c = p && startsWithC cs ps

def rsStartsWith (s pat : String) : Bool :=
  startsWithC s.data pat.data

/-- Model of Rust `str::strip_suffix`: `some` of the remainder when the
suffix matches. -/
def stripSuffixC (cs sfx : List Char) : Option (List Char) :=
  if startsWithC cs.reverse sfx.reverse then
    some (cs.take (cs.length - sfx.length))
  else
    none

/-- Model of Rust `str::to_uppercase` (ASCII fragment). -/
def upperC (cs : List Char) : List Char :=
  cs.map Char.toUpper

def rsToUpper (s : String) : String :=
  ⟨upperC s.data⟩

/-- Model of Rust `str::contains(pattern)` (substring search). -/
def containsSubC : List Char → List Char → Bool
  | cs, pat =>
    if startsWithC cs pat then true
    else
      match cs with
      | [] => pat.isEmpty
      | _ :: rest => containsSubC rest pat

def rsContains (s pat : String) : Bool :=
  containsSubC s.data pat.data

/-- Model of Rust `str::find(char)`: index of the first occurrence. -/
def findCharC (cs : List Char) (c : Char) : Option Nat :=
  cs.findIdx? (fun d => d = c)

/-- Model of Rust `str::rfind(char)`: index of the last occurrence. -/
def rfindCharC (cs : List Char) (c : Char) : Option Nat :=
  (findCharC cs.reverse c).map (fun i => cs.length - 1 - i)

/-- Model of Rust `str::split(char)`: splits at every occurrence,
keeping empty pieces. -/
def splitC (cs : List Char) (sep : Char) : List (List Char) :=
  match cs with
  | [] => [[]]
  | c :: rest =>
    let r := splitC rest sep
    if c = sep then [] :: r
    else
      match r with
      | [] => [[c]]
      | p :: ps => (c :: p) :: ps

/-- Model of Rust `str::split_once(char)`: the pieces before and after
the first occurrence. -/
def splitOnceC (cs : List Char) (sep : Char) : Option (List Char × List Char) :=
  match findCharC cs sep with
  | none => none
  | some i => some (cs.take i, cs.drop (i + 1))

/-- Model of Rust `str::split_whitespace`: maximal non-whitespace runs. -/
def splitWsC : List Char → List (List Char)
  | [] => []
  | c :: cs =>
    if isWs c then splitWsC cs
    else
      match splitWsC cs with
      | [] => [[c]]
      | p :: ps =>
        match cs with
        | [] => [[c]]
        | d :: _ => if isWs d then [c] :: p :: ps else (c :: p) :: ps

def natOfDigitsC : List Char → Nat
  | [] => 0
  | c :: cs => (natOfDigitsC cs) + (c.toNat - 48) * 10 ^ cs.length

/-- Digit-string check: nonempty and all ASCII digits. -/
def allDigitsC (cs : List Char) : Bool :=
  !cs.isEmpty && cs.all Char.isDigit

/-- Model of Rust `str::parse::<uN>` for a bound `2 ^ w`: an optional
leading `+`, then decimal digits, rejecting values that overflow. -/
def parseUIntC (w : Nat) (cs : List Char) : Option Nat :=
  let ds := match cs with
    | '+' :: rest => rest
    | other => other
  if allDigitsC ds && natOfDigitsC ds < 2 ^ w then
    some (natOfDigitsC ds)
  else
    none

def rsParseU64 (s : String) : Option Nat := parseUIntC 64 s.data

def rsParseU32 (s : String) : Option Nat := parseUIntC 32 s.data

/-! ## Data model (`model.rs`) -/

structure FileConstraints where
  max_files : Option Nat
  max_size : Option Nat
  accept : List String
  deriving Repr, DecidableEq

def FileConstraints.default : FileConstraints :=
  { max_files := none, max_size := none, accept := [] }

structure Choice where
  label : Char
  text : String
  marked : Bool
  deriving Repr, DecidableEq

inductive QuestionKind where
  | singleChoice (choices : List Choice)
  | multiChoice (choices : List Choice)
  | short
  | long
  | file (constraints : FileConstraints)
  deriving Repr, DecidableEq

inductive BodyElement where
  | text (s : String)
  | code (s : String)
  | listItem (s : String)
  deriving Repr, DecidableEq

structure Question where
  number : Nat
  title : String
  body_lines : List BodyElement
  kind : QuestionKind
  hints : List String
  deriving Repr, DecidableEq

structure Quiz where
  title : String
  preamble : List String
  questions : List Question
  quiz_file : String
  quiz_hash : String
  deriving Repr, DecidableEq

structure Answer where
  answer_type : String
  selected : Option (List String)
  text : Option String
  files : Option (List String)
  deriving Repr, DecidableEq

structure AckData where
  name : String
  agreed_at : String
  text_hash : String
  deriving Repr, DecidableEq

/-! ## Size and file-constraint parsing (`parser.rs`) -/

/-- Embedding of `parse_size`: uppercase, strip a `GB`/`MB`/`KB`/`B`
suffix in that order, parse the rest as `u64`, scale by the binary
multiple.  The Rust multiplication is on `u64`; the claims are settled
below the overflow range, so plain `Nat` multiplication is used. -/
def parse_size (s : String) : Option Nat :=
  let t := upperC (trimC s.data)
  match stripSuffixC t ['G', 'B'] with
  | some num => (parseUIntC 64 (trimC num)).map (fun n => n * 1024 * 1024 * 1024)
  | none =>
    match stripSuffixC t ['M', 'B'] with
    | some num => (parseUIntC 64 (trimC num)).map (fun n => n * 1024 * 1024)
    | none =>
      match stripSuffixC t ['K', 'B'] with
      | some num => (parseUIntC 64 (trimC num)).map (fun n => n * 1024)
      | none =>
        match stripSuffixC t ['B'] with
        | some num => parseUIntC 64 (trimC num)
        | none => parseUIntC 64 t

/-- Effect of one `key:value` parameter on the accumulated constraints,
mirroring the `match key` arms of `parse_file_constraints`. -/
def applyConstraintParam (acc : FileConstraints) (param : List Char) : FileConstraints :=
  match splitOnceC (trimC param) ':' with
  | none => acc
  | some (key, value) =>
    let key := trimC key
    let value := trimC value
    if key = ['m', 'a', 'x', '_', 'f', 'i', 'l', 'e', 's'] then
      { acc with max_files := parseUIntC 32 value }
    else if key = ['m', 'a', 'x', '_', 's', 'i', 'z', 'e'] then
      { acc with max_size := parse_size ⟨value⟩ }
    else if key = ['a', 'c', 'c', 'e', 'p', 't'] then
      let toks := (splitWsC value).map (fun cs => String.mk cs)
      { acc with accept := if toks.isEmpty then [String.mk value] else toks }
    else acc

/-- Embedding of `parse_file_constraints`: the parenthesized comma list
of `key:value` pairs; unknown keys ignored, unparseable values leave the
field unset. -/
def parse_file_constraints (text : String) : FileConstraints :=
  match findCharC text.data '(', rfindCharC text.data ')' with
  | some start, some stop =>
    let params := (text.data.take stop).drop (start + 1)
    (splitC params ',').foldl applyConstraintParam FileConstraints.default
  | _, _ => FileConstraints.default

/-! ## Body parsing (`parser.rs`)

The Rust code walks the event stream produced by `pulldown_cmark`
(an external collaborator).  The events the loop inspects are embedded
as `MdEvent`; heading levels are plain numbers (1 for H1, 2 for H2). -/

inductive MdEvent where
  | startHeading (level : Nat)
  | endHeading (level : Nat)
  | startBlockQuote
  | endBlockQuote
  | startList
  | endList
  | startItem
  | endItem
  | taskListMarker (checked : Bool)
  | startParagraph
  | endParagraph
  | startCodeBlock
  | endCodeBlock
  | text (s : String)
  | inlineCode (s : String)
  | softBreak
  | hardBreak
  | rule
  deriving Repr, DecidableEq

/-- The mutable locals of `parse_body`, gathered into one record. -/
structure ParseSt where
  title : String
  preamble : List String
  questions : List Question
  in_h1 : Bool
  in_h2 : Bool
  current_h2_text : String
  seen_h2 : Bool
  current_choices : List Choice
  current_kind : Option QuestionKind
  current_hints : List String
  current_body : List BodyElement
  in_blockquote : Bool
  blockquote_text : String
  in_hint_block : Bool
  hint_text : String
  choice_index : Nat
  in_list_item : Bool
  list_item_text : String
  task_list_checked : Option Bool
  in_paragraph : Bool
  paragraph_text : String
  in_code_block : Bool
  code_block_text : String
  deriving Repr, DecidableEq

def initParseSt : ParseSt :=
  { title := "", preamble := [], questions := [], in_h1 := false,
    in_h2 := false, current_h2_text := "", seen_h2 := false,
    current_choices := [], current_kind := none, current_hints := [],
    current_body := [], in_blockquote := false, blockquote_text := "",
    in_hint_block := false, hint_text := "", choice_index := 0,
    in_list_item := false, list_item_text := "",
    task_list_checked := none, in_paragraph := false,
    paragraph_text := "", in_code_block := false, code_block_text := "" }

/-- Embedding of `parse_h2_title`: the heading must read
`<integer>. <title>`; the number is parsed as `u32`.  (The second error
message drops the quote characters of the Rust text; no theorem depends
on it.) -/
def parse_h2_title (text : String) : Except String (Nat × String) :=
  let trimmed := trimC text.data
  match findCharC trimmed '.' with
  | some dot_pos =>
    let num_str := trimC (trimmed.take dot_pos)
    let title := String.mk (trimC (trimmed.drop (dot_pos + 1)))
    match parseUIntC 32 num_str with
    | some number => Except.ok (number, title)
    | none =>
      Except.error ("Invalid question number in heading: " ++ String.mk trimmed)
  | none =>
    Except.error ("Question heading must be in format ## N. Title, got: " ++ String.mk trimmed)

/-- Embedding of `finalize_question`: closes the currently open question
and appends it, clearing the per-question accumulators. -/
def finalize_question (st : ParseSt) : Except String ParseSt := do
  let (number, title) ← parse_h2_title st.current_h2_text
  let is_multi := rsContains title "(Multi)"
  let final_kind :=
    if !st.current_choices.isEmpty then
      if is_multi then QuestionKind.multiChoice st.current_choices
      else QuestionKind.singleChoice st.current_choices
    else
      st.current_kind.getD QuestionKind.short
  Except.ok { st with
    questions := st.questions ++
      [{ number := number, title := title, body_lines := st.current_body,
         kind := final_kind, hints := st.current_hints }],
    current_choices := [], current_kind := none, current_hints := [],
    current_body := [], choice_index := 0 }

/-- Effect of one markdown event on the loop state: a direct transcription
of the `match event` arms of `parse_body`. -/
def stepEvent (st : ParseSt) (ev : MdEvent) : Except String ParseSt :=
  match ev with
  | .startHeading level =>
    if level = 1 then Except.ok { st with in_h1 := true }
    else if level = 2 then do
      let st ← if st.seen_h2 then finalize_question st else Except.ok st
      Except.ok { st with in_h2 := true, current_h2_text := "", seen_h2 := true }
    else Except.ok st
  | .endHeading level =>
    if level = 1 then Except.ok { st with in_h1 := false }
    else if level = 2 then Except.ok { st with in_h2 := false }
    else Except.ok st
  | .startBlockQuote =>
    Except.ok { st with in_blockquote := true, blockquote_text := "" }
  | .endBlockQuote =>
    let st := { st with in_blockquote := false }
    let trimmed := trimC st.blockquote_text.data
    if st.seen_h2 then
      if trimmed = "short".data then
        Except.ok { st with current_kind := some QuestionKind.short }
      else if trimmed = "long".data then
        Except.ok { st with current_kind := some QuestionKind.long }
      else if startsWithC trimmed "file".data then
        let fk := QuestionKind.file (parse_file_constraints ⟨trimmed⟩)
        Except.ok { st with current_kind := some fk }
      else Except.ok st
    else Except.ok st
  | .startList => Except.ok st
  | .endList => Except.ok st
  | .startItem =>
    Except.ok { st with in_list_item := true, list_item_text := "",
                        task_list_checked := none }
  | .endItem =>
    let st := { st with in_list_item := false }
    let st :=
      if st.seen_h2 then
        match st.task_list_checked with
        | some checked =>
          let label := Char.ofNat (97 + st.choice_index)
          { st with
            current_choices := st.current_choices ++
              [{ label := label, text := ⟨trimC st.list_item_text.data⟩,
                 marked := checked }],
            choice_index := st.choice_index + 1 }
        | none =>
          if !(trimC st.list_item_text.data).isEmpty then
            { st with current_body := st.current_body ++
              [BodyElement.listItem ⟨trimC st.list_item_text.data⟩] }
          else st
      else st
    Except.ok { st with task_list_checked := none }
  | .taskListMarker checked =>
    Except.ok { st with task_list_checked := some checked }
  | .startParagraph =>
    Except.ok { st with in_paragraph := true, paragraph_text := "" }
  | .endParagraph =>
    let st := { st with in_paragraph := false }
    let txt := trimC st.paragraph_text.data
    if st.in_hint_block then
      if !txt.isEmpty then
        let sep := if st.hint_text.isEmpty then "" else "\n"
        Except.ok { st with hint_text := st.hint_text ++ sep ++ String.mk txt }
      else Except.ok st
    else if st.in_blockquote then
      if !txt.isEmpty then Except.ok { st with blockquote_text := ⟨txt⟩ }
      else Except.ok st
    else if !txt.isEmpty then
      if startsWithC txt ":::hint".data then
        Except.ok { st with in_hint_block := true, hint_text := "" }
      else if txt = ":::".data && st.in_hint_block then
        Except.ok st
      else if !st.seen_h2 && !st.in_h1 then
        Except.ok { st with preamble := st.preamble ++ [String.mk txt] }
      else if st.seen_h2 then
        Except.ok { st with current_body := st.current_body ++
          [BodyElement.text (String.mk txt)] }
      else Except.ok st
    else Except.ok st
  | .startCodeBlock =>
    Except.ok { st with in_code_block := true, code_block_text := "" }
  | .endCodeBlock =>
    let st := { st with in_code_block := false }
    if st.seen_h2 then
      Except.ok { st with current_body := st.current_body ++
        [BodyElement.code st.code_block_text] }
    else Except.ok st
  | .text t =>
    if st.in_h1 then Except.ok { st with title := t }
    else if st.in_h2 then
      Except.ok { st with current_h2_text := st.current_h2_text ++ t }
    else if st.in_code_block then
      Except.ok { st with code_block_text := st.code_block_text ++ t }
    else if st.in_blockquote then
      Except.ok { st with blockquote_text := st.blockquote_text ++ t }
    else if st.in_list_item then
      Except.ok { st with list_item_text := st.list_item_text ++ t }
    else if st.in_paragraph then
      if startsWithC (trimC t.data) ":::hint".data then
        Except.ok { st with in_hint_block := true, hint_text := "",
                            paragraph_text := "" }
      else if trimC t.data = ":::".data && st.in_hint_block then
        let st :=
          if !st.hint_text.isEmpty && st.seen_h2 then
            { st with current_hints := st.current_hints ++
              [String.mk (trimC st.hint_text.data)] }
          else st
        Except.ok { st with in_hint_block := false, hint_text := "",
                            paragraph_text := "" }
      else if st.in_hint_block then
        let sep := if st.hint_text.isEmpty then "" else " "
        Except.ok { st with hint_text := st.hint_text ++ sep ++ t }
      else
        Except.ok { st with paragraph_text := st.paragraph_text ++ t }
    else Except.ok st
  | .inlineCode c =>
    let c2 := "`" ++ c ++ "`"
    if st.in_paragraph then
      Except.ok { st with paragraph_text := st.paragraph_text ++ c2 }
    else if st.in_list_item then
      Except.ok { st with list_item_text := st.list_item_text ++ c2 }
    else Except.ok st
  | .softBreak =>
    if st.in_paragraph then
      Except.ok { st with paragraph_text := st.paragraph_text ++ " " }
    else Except.ok st
  | .hardBreak =>
    if st.in_paragraph then
      Except.ok { st with paragraph_text := st.paragraph_text ++ " " }
    else Except.ok st
  | .rule => Except.ok st

/-- Embedding of `parse_body`: fold the events, then finalize the last
open question. -/
def parse_body (events : List MdEvent) :
    Except String (String × List String × List Question) := do
  let st ← events.foldlM stepEvent initParseSt
  let st ← if st.seen_h2 then finalize_question st else Except.ok st
  Except.ok (st.title, st.preamble, st.questions)

/-! ## Session state (`state.rs`)

`HashMap<u32, V>` is modelled as an association list with
insert-replaces semantics; nothing in the embedded code iterates over a
map, so only `lookup` matters.  UI-only fields of `AppState` (screen,
cursors, dialogs, scroll offsets) play no part in the claims and are
omitted; the session fields are kept with their Rust names. -/

def hmErase : List (Nat × α) → Nat → List (Nat × α)
  | [], _ => []
  | (k, v) :: rest, n => if k = n then hmErase rest n else (k, v) :: hmErase rest n

def hmInsert (m : List (Nat × α)) (k : Nat) (v : α) : List (Nat × α) :=
  (k, v) :: hmErase m k

def hmGet? : List (Nat × α) → Nat → Option α
  | [], _ => none
  | (k, v) :: rest, n => if n = k then some v else hmGet? rest n

def hmGetD (m : List (Nat × α)) (k : Nat) (d : α) : α :=
  (hmGet? m k).getD d

def hmContains (m : List (Nat × α)) (k : Nat) : Bool :=
  (hmGet? m k).isSome

inductive QuestionStatus where
  | unread
  | notAnswered
  | answered
  | done
  | flagged
  deriving Repr, DecidableEq

structure AppState where
  quiz : Quiz
  current_question : Nat
  answers : List (Nat × Answer)
  flags : List (Nat × Bool)
  visited : List (Nat × Bool)
  hints_revealed : List (Nat × Nat)
  text_input : String
  text_cursor : Nat
  started_at : Option String
  submitted_at : Option String
  ack_data : Option AckData
  done_marks : List (Nat × Bool)
  deriving Repr, DecidableEq

/-- Embedding of `AppState::new`. -/
def AppState.new (quiz : Quiz) : AppState :=
  { quiz := quiz, current_question := 0, answers := [], flags := [],
    visited := [], hints_revealed := [], text_input := "",
    text_cursor := 0, started_at := none, submitted_at := none,
    ack_data := none, done_marks := [] }

/-- Embedding of `AppState::current_question()` (the accessor method). -/
def AppState.cur_question (st : AppState) : Option Question :=
  st.quiz.questions.get? st.current_question

/-- Embedding of `current_question_number`. -/
def AppState.current_question_number (st : AppState) : Nat :=
  ((st.cur_question).map (fun q => q.number)).getD 0

def QuestionKind.isText : QuestionKind → Bool
  | .short => true
  | .long => true
  | _ => false

/-- The `is_current_text` test shared by `question_status`,
`toggle_done` (via its local closure) and `is_done`: the question is the
current one and is Short/Long. -/
def AppState.is_current_text (st : AppState) (qnum : Nat) : Bool :=
  match st.cur_question with
  | some q => q.number = qnum && q.kind.isText
  | none => false

/-- Embedding of `question_status`. -/
def AppState.question_status (st : AppState) (qnum : Nat) : QuestionStatus :=
  let is_current_text := st.is_current_text qnum
  let current_text_empty := is_current_text && st.text_input.isEmpty
  if !current_text_empty && hmGetD st.done_marks qnum false then .done
  else if hmGetD st.flags qnum false then .flagged
  else if is_current_text then
    if !st.text_input.isEmpty then .answered
    else if hmGetD st.visited qnum false then .notAnswered
    else .unread
  else if hmContains st.answers qnum then .answered
  else if hmGetD st.visited qnum false then .notAnswered
  else .unread

/-- Embedding of `save_current_text_input`: commit the live edit buffer
for the current Short/Long question; an empty buffer clears the stored
answer and the done mark. -/
def AppState.save_current_text_input (st : AppState) : AppState :=
  match st.cur_question with
  | none => st
  | some q =>
    match q.kind with
    | .short =>
      if !st.text_input.isEmpty then
        let a : Answer := { answer_type := "short", selected := none,
                            text := some st.text_input, files := none }
        { st with answers := hmInsert st.answers q.number a }
      else
        { st with answers := hmErase st.answers q.number,
                  done_marks := hmInsert st.done_marks q.number false }
    | .long =>
      if !st.text_input.isEmpty then
        let a : Answer := { answer_type := "long", selected := none,
                            text := some st.text_input, files := none }
        { st with answers := hmInsert st.answers q.number a }
      else
        { st with answers := hmErase st.answers q.number,
                  done_marks := hmInsert st.done_marks q.number false }
    | _ => st

/-- Embedding of `toggle_done`; the returned `Bool` is the Rust return
value. -/
def AppState.toggle_done (st : AppState) : Bool × AppState :=
  let qnum := st.current_question_number
  let currently_done := hmGetD st.done_marks qnum false
  if currently_done then
    (true, { st with done_marks := hmInsert st.done_marks qnum false })
  else
    let has_answer :=
      if (match st.cur_question with
          | some q => q.kind.isText
          | none => false) then
        !st.text_input.isEmpty
      else
        hmContains st.answers qnum
    if !has_answer then (false, st)
    else
      let st := st.save_current_text_input
      (true, { st with done_marks := hmInsert st.done_marks qnum true,
                       flags := hmInsert st.flags qnum false })

/-- Embedding of `toggle_flag`. -/
def AppState.toggle_flag (st : AppState) : AppState :=
  let qnum := st.current_question_number
  let current := hmGetD st.flags qnum false
  if current then
    { st with flags := hmInsert st.flags qnum false }
  else
    { st with flags := hmInsert st.flags qnum true,
              done_marks := hmInsert st.done_marks qnum false }

/-- Embedding of `load_text_input_for_current`. -/
def AppState.load_text_input_for_current (st : AppState) : AppState :=
  match st.cur_question with
  | some q =>
    match hmGet? st.answers q.number with
    | some answer =>
      match answer.text with
      | some t => { st with text_input := t, text_cursor := t.length }
      | none => { st with text_input := "", text_cursor := 0 }
    | none => { st with text_input := "", text_cursor := 0 }
  | none => { st with text_input := "", text_cursor := 0 }

/-- Embedding of `navigate_to` (session fields; cursor/scroll resets of
the UI are outside the model). -/
def AppState.navigate_to (st : AppState) (idx : Nat) : AppState :=
  match st.quiz.questions.get? idx with
  | some q =>
    let st := st.save_current_text_input
    let st := { st with current_question := idx }
    let st := { st with visited := hmInsert st.visited q.number true }
    st.load_text_input_for_current
  | none => st

/-- Embedding of `select_single_choice`. -/
def AppState.select_single_choice (st : AppState) (idx : Nat) : AppState :=
  match st.cur_question with
  | some q =>
    match q.kind with
    | .singleChoice choices =>
      match choices.get? idx with
      | some c =>
        let a : Answer := { answer_type := "single",
                            selected := some [c.label.toString],
                            text := none, files := none }
        { st with answers := hmInsert st.answers q.number a }
      | none => st
    | _ => st
  | none => st

/-- Embedding of `toggle_multi_choice`. -/
def AppState.toggle_multi_choice (st : AppState) (idx : Nat) : AppState :=
  match st.cur_question with
  | some q =>
    match q.kind with
    | .multiChoice choices =>
      match choices.get? idx with
      | some c =>
        let label := c.label.toString
        let selected :=
          match hmGet? st.answers q.number with
          | some existing => existing.selected.getD []
          | none => []
        let selected :=
          if selected.contains label then
            selected.filter (fun s => s ≠ label)
          else
            selected ++ [label]
        let a : Answer := { answer_type := "multi",
                            selected := some selected,
                            text := none, files := none }
        { st with answers := hmInsert st.answers q.number a }
      | none => st
    | _ => st
  | none => st

/-- Embedding of the hint-reveal confirmation (`tui.rs`,
`Dialog::ConfirmHint` on Enter): increments the revealed count of the
current question. -/
def AppState.reveal_hint (st : AppState) : AppState :=
  let qnum := st.current_question_number
  let current := hmGetD st.hints_revealed qnum 0
  { st with hints_revealed := hmInsert st.hints_revealed qnum (current + 1) }

/-- The session operations an interactive run can apply; `setText`
stands for the net effect of a burst of character edits on the live
buffer (`tui.rs` mutates `text_input` directly on keystrokes). -/
inductive SessionOp where
  | toggleDone
  | toggleFlag
  | setText (s : String)
  | navigate (idx : Nat)
  | selectSingle (idx : Nat)
  | toggleMulti (idx : Nat)
  | revealHint
  deriving Repr, DecidableEq

def applyOp (st : AppState) : SessionOp → AppState
  | .toggleDone => (st.toggle_done).2
  | .toggleFlag => st.toggle_flag
  | .setText s => { st with text_input := s }
  | .navigate idx => st.navigate_to idx
  | .selectSingle idx => st.select_single_choice idx
  | .toggleMulti idx => st.toggle_multi_choice idx
  | .revealHint => st.reveal_hint

def runOps (quiz : Quiz) (ops : List SessionOp) : AppState :=
  ops.foldl applyOp (AppState.new quiz)

/-! ## Persistence (`submit.rs` / `persist.rs`)

`build_answers_yaml` renders the snapshot as a YAML string and
`load_state` re-parses it with `serde_yaml` (an external collaborator).
The embedding works at the level of the document the YAML text encodes:
`SavedDoc` holds, for each field the writer emits and the loader reads,
the value the parse delivers back.  For the `{:?}`-quoted scalars that
is the written value itself; for a long answer the writer emits a
literal block (`answer: |` plus `text.lines()` indented), whose parsed
value is the lines-plus-clip normalization `encodeLongText` — not the
original text.  The write-only `duration:` line (a derived display
string that `load_state` never reads) is left out. -/

inductive SavedAnswer where
  | null
  | scalar (s : String)
  | seq (xs : List String)
  deriving Repr, DecidableEq

structure SavedQuestion where
  number : Nat
  title : String
  qtype : String
  choices : List (Char × String)
  hint_used : Bool
  done : Bool
  flagged : Bool
  answer : SavedAnswer
  deriving Repr, DecidableEq

structure SavedDoc where
  quiz_title : String
  quiz_source : String
  submitted_at_doc : String
  acknowledged : Bool
  current_question_doc : Nat
  quiz_file_hash : String
  started_at_doc : Option String
  ack_doc : Option AckData
  questions_doc : List SavedQuestion
  deriving Repr, DecidableEq

/-- Model of Rust `Path::file_name` on forward-slash paths: the final
component, ignoring a trailing slash; `none` for an empty final
component or `..`.  (Rust also normalizes away a trailing `/.`, which
this model does not; `pathFileNameOk` below confines the claims to
paths where the two agree.) -/
def rsFileName (f : String) : Option String :=
  let comps := (splitC f.data '/').filter (fun cs => !cs.isEmpty)
  match comps.getLast? with
  | none => none
  | some cs => if cs = ['.', '.'] then none else some (String.mk cs)

/-- The path rewrite `build_answers_yaml` applies to a stored file
answer: `files/q<number>/<filename>`, falling back to the whole path
when `file_name` yields nothing. -/
def rewriteFilePath (number : Nat) (f : String) : String :=
  "files/q" ++ toString number ++ "/" ++ ((rsFileName f).getD f)

def stripCR (l : List Char) : List Char :=
  match l.getLast? with
  | some c => if c = '\r' then l.dropLast else l
  | none => l

/-- Model of Rust `str::lines()`: split at `\n`, dropping one `\r`
before each terminator; a trailing terminator produces no empty entry,
and a final unterminated segment is kept verbatim (including a lone
`\r`). -/
def rsLinesC (cs : List Char) : List (List Char) :=
  match (splitC cs '\n').reverse with
  | [] => []
  | last :: initRev =>
    let init := (initRev.map stripCR).reverse
    if last.isEmpty then init else init ++ [last]

def dropTrailingEmptyLines (ls : List (List Char)) : List (List Char) :=
  (ls.reverse.dropWhile List.isEmpty).reverse

/-- Semantic value of a YAML literal block scalar with clip chomping:
each content line followed by a newline, trailing empty lines dropped,
an empty block reading back as the empty string. -/
def yamlBlockClipC (ls : List (List Char)) : List Char :=
  ((dropTrailingEmptyLines ls).map (fun l => l ++ ['\n'])).flatten

/-- What a long answer's text reads back as: `build_answers_yaml`
writes it as `answer: |` with each of `text.lines()` indented, and
`serde_yaml` parses that literal block with clip chomping — so e.g.
`"hello"` loads as `"hello\n"` and trailing blank lines are clipped. -/
def encodeLongText (t : String) : String :=
  ⟨yamlBlockClipC (rsLinesC t.data)⟩

/-- The serialized `answer:` value of one question, following the
per-kind `match` of `build_answers_yaml`.  File paths are rewritten to
`files/q<number>/<filename>` exactly as the writer does. -/
def savedAnswerOf (kind : QuestionKind) (number : Nat)
    (answer : Option Answer) : SavedAnswer :=
  match kind with
  | .singleChoice _ =>
    match answer.bind (fun a => a.selected) with
    | some (l :: _) => .scalar l
    | _ => .null
  | .multiChoice _ =>
    match answer.bind (fun a => a.selected) with
    | some [] => .null
    | some sel => .seq sel
    | none => .null
  | .short =>
    match answer.bind (fun a => a.text) with
    | some t => .scalar t
    | none => .null
  | .long =>
    match answer.bind (fun a => a.text) with
    | some t => .scalar (encodeLongText t)
    | none => .null
  | .file _ =>
    match answer.bind (fun a => a.files) with
    | some [] => .null
    | some fs => .seq (fs.map (rewriteFilePath number))
    | none => .null

def qtypeOf : QuestionKind → String
  | .singleChoice _ => "single"
  | .multiChoice _ => "multi"
  | .short => "short"
  | .long => "long"
  | .file _ => "file"

def choicesOf : QuestionKind → List (Char × String)
  | .singleChoice cs => cs.map (fun c => (c.label, c.text))
  | .multiChoice cs => cs.map (fun c => (c.label, c.text))
  | _ => []

/-- One `questions:` entry of the snapshot document. -/
def buildSavedQuestion (st : AppState) (q : Question) : SavedQuestion :=
  { number := q.number, title := q.title, qtype := qtypeOf q.kind,
    choices := choicesOf q.kind,
    hint_used := hmGetD st.hints_revealed q.number 0 > 0,
    done := hmGetD st.done_marks q.number false,
    flagged := hmGetD st.flags q.number false,
    answer := savedAnswerOf q.kind q.number (hmGet? st.answers q.number) }

/-- Embedding of `build_answers_yaml` at document level. -/
def build_answers_doc (st : AppState) : SavedDoc :=
  { quiz_title := st.quiz.title,
    quiz_source := st.quiz.quiz_file,
    submitted_at_doc := st.submitted_at.getD "unknown",
    acknowledged := st.ack_data.isSome,
    current_question_doc := st.current_question,
    quiz_file_hash := st.quiz.quiz_hash,
    started_at_doc := st.started_at,
    ack_doc := st.ack_data,
    questions_doc := st.quiz.questions.map (buildSavedQuestion st) }

/-- The `Answer` value `load_state` rebuilds from one saved entry,
keyed on the saved `type:` tag. -/
def restoredAnswer (sq : SavedQuestion) : Option Answer :=
  match sq.answer with
  | .null => none
  | .scalar s =>
    if sq.qtype = "single" then
      some { answer_type := "single", selected := some [s],
             text := none, files := none }
    else if sq.qtype = "short" then
      some { answer_type := "short", selected := none,
             text := some s, files := none }
    else if sq.qtype = "long" then
      some { answer_type := "long", selected := none,
             text := some s, files := none }
    else none
  | .seq xs =>
    if sq.qtype = "multi" then
      some { answer_type := "multi", selected := some xs,
             text := none, files := none }
    else if sq.qtype = "file" then
      some { answer_type := "file", selected := none,
             text := none, files := some xs }
    else none

/-- Per-question restore step of `load_state`: the rebuilt answer, then
the done/flag marks and the hint-used flag. -/
def restoreQuestion (st : AppState) (sq : SavedQuestion) : AppState :=
  let st :=
    match restoredAnswer sq with
    | some a => { st with answers := hmInsert st.answers sq.number a,
                          visited := hmInsert st.visited sq.number true }
    | none => st
  let st := if sq.done then
    { st with done_marks := hmInsert st.done_marks sq.number true } else st
  let st := if sq.flagged then
    { st with flags := hmInsert st.flags sq.number true } else st
  if sq.hint_used then
    { st with hints_revealed := hmInsert st.hints_revealed sq.number 1 }
  else st

def loadQuestions (sqs : List SavedQuestion) (st : AppState) : AppState :=
  sqs.foldl restoreQuestion st

/-- Embedding of `load_state` from the parsed document on: the quiz-hash
guard, the session metadata, then the per-question data.  (Locating the
file and parsing the YAML bytes precede this in `persist.rs`.) -/
def load_state (doc : SavedDoc) (st : AppState) : Except String AppState :=
  if doc.quiz_file_hash ≠ st.quiz.quiz_hash then
    Except.error "Quiz file has changed since last session. Use --clear to reset."
  else
    let st :=
      if doc.current_question_doc < st.quiz.questions.length then
        { st with current_question := doc.current_question_doc }
      else st
    let st :=
      if doc.submitted_at_doc ≠ "unknown" then
        { st with submitted_at := some doc.submitted_at_doc }
      else st
    let st :=
      match doc.started_at_doc with
      | some v => { st with started_at := some v }
      | none => st
    let st :=
      match doc.ack_doc with
      | some ack =>
        if !ack.name.isEmpty then { st with ack_data := some ack } else st
      | none => st
    Except.ok (loadQuestions doc.questions_doc st)

/-! ## Submission push loop (`tui.rs::push_with_retry`, `git.rs`)

`git_push` is an external process call; the loop sees it as a function
from the attempt number to `Ok` or an error string, with a remote
conflict signalled by the `CONFLICT:` marker that `git_push` prepends
when stderr mentions a rejection.  The cancellation flag is owned by the
interactive thread and stays unset in the scenarios the claims describe,
so the embedding runs the loop uncancelled.  Sleeping advances only the
`elapsed` counter.  The loop terminates because `elapsed` grows by at
least 2 each round; a fuel argument larger than any reachable iteration
count makes the recursion structural. -/

inductive PushEvent where
  | success
  | retrying (attempt : Nat) (wait_secs : Nat) (elapsed : Nat) (error : String)
  | timeout
  | cancelled
  | conflict (msg : String)
  deriving Repr, DecidableEq

/-- The screen `handle_push` switches to for each event: `Done` after a
successful publish, `SaveLocal` (the local fallback) on timeout,
`AlreadySubmitted` on a conflict. -/
inductive PushScreen where
  | done
  | pushRetrying
  | saveLocal
  | working
  | alreadySubmitted
  deriving Repr, DecidableEq

def screenAfter : PushEvent → PushScreen
  | .success => .done
  | .retrying _ _ _ _ => .pushRetrying
  | .timeout => .saveLocal
  | .cancelled => .working
  | .conflict _ => .alreadySubmitted

def maxElapsed : Nat := 600

/-- The body of `push_with_retry` as a fuel-indexed recursion over the
loop state `(attempt, wait_secs, elapsed)`; the result is the list of
events sent over the channel, in order. -/
def pushLoop (pushFn : Nat → Except String Unit) :
    Nat → Nat → Nat → Nat → List PushEvent
  | 0, _, _, _ => []
  | fuel + 1, attempt, wait_secs, elapsed =>
    match pushFn (attempt + 1) with
    | .ok _ => [.success]
    | .error e =>
      if rsStartsWith e "CONFLICT:" then
        [.conflict e]
      else if elapsed ≥ maxElapsed then
        [.timeout]
      else
        .retrying (attempt + 1) wait_secs elapsed e ::
          pushLoop pushFn fuel (attempt + 1) (min (wait_secs * 2) 30)
            (elapsed + wait_secs)

/-- Embedding of `push_with_retry`: attempt counter 0, initial backoff
2 s, nothing elapsed.  The fuel 1000 exceeds the at most 301 iterations
the 600-second ceiling admits. -/
def push_with_retry (pushFn : Nat → Except String Unit) : List PushEvent :=
  pushLoop pushFn 1000 0 2 0

def isRetrying : PushEvent → Bool
  | .retrying _ _ _ _ => true
  | _ => false

def countRetrying (evs : List PushEvent) : Nat :=
  (evs.filter isRetrying).length

/-- The `(attempt, wait_secs)` data of the k-th `Retrying` event
(0-indexed). -/
def kthRetry? (evs : List PushEvent) (k : Nat) : Option (Nat × Nat) :=
  ((evs.filter isRetrying).get? k).map (fun ev =>
    match ev with
    | .retrying a w _ _ => (a, w)
    | _ => (0, 0))

def sumWaits (evs : List PushEvent) : Nat :=
  (evs.map (fun ev =>
    match ev with
    | .retrying _ w _ _ => w
    | _ => 0)).sum

/-! ## Concrete fixtures -/

def qShort : Question :=
  { number := 1, title := "Short one", body_lines := [],
    kind := QuestionKind.short, hints := ["first hint", "second hint"] }

def qMulti : Question :=
  { number := 2, title := "Pick some (Multi)", body_lines := [],
    kind := QuestionKind.multiChoice
      [{ label := 'a', text := "Alpha", marked := false },
       { label := 'b', text := "Beta", marked := true }],
    hints := [] }

def qLong : Question :=
  { number := 3, title := "Essay", body_lines := [],
    kind := QuestionKind.long, hints := [] }

def quizA : Quiz :=
  { title := "Sample", preamble := ["read carefully"],
    questions := [qShort, qMulti, qLong], quiz_file := "quiz.md",
    quiz_hash := "sha256:aaa" }

/-- A quiz whose first (current) question is the multi-choice one. -/
def quizM : Quiz :=
  { title := "Sample", preamble := [], questions := [qMulti],
    quiz_file := "quiz.md", quiz_hash := "sha256:aaa" }

/-- A stored snapshot recording a different quiz hash. -/
def docStale : SavedDoc :=
  { quiz_title := "Sample", quiz_source := "quiz.md",
    submitted_at_doc := "unknown", acknowledged := false,
    current_question_doc := 0, quiz_file_hash := "sha256:bbb",
    started_at_doc := none, ack_doc := none, questions_doc := [] }

/-- Event stream of a document whose two level-2 headings carry the same
number: `## 3. First` then `## 3. Second`. -/
def dupEvents : List MdEvent :=
  [MdEvent.startHeading 2, MdEvent.text "3. First", MdEvent.endHeading 2,
   MdEvent.startHeading 2, MdEvent.text "3. Second", MdEvent.endHeading 2]

/-! ## Claim C1 — duplicate question numbers

The spec demands a fatal error for two level-2 headings bearing the same
number.  Neither `parse_h2_title` nor `finalize_question` consults the
questions already collected, so the duplicate document parses
successfully. -/

/-- C1 counterexample: the two-heading document numbered 3 twice parses
to a Quiz body holding both questions, instead of the fatal error the
claim requires. -/
theorem C1_counterexample :
    (parse_body dupEvents).toOption.map
        (fun r => r.2.2.map (fun q => q.number)) = some [3, 3] := by
  decide

/-- C1 amended: finalizing a question succeeds exactly when its heading
parses as `<integer>. <title>`; the outcome never depends on the
questions already collected, so duplicate numbers are accepted and only
malformed headings are fatal. -/
theorem C1_no_duplicate_check (st : ParseSt) :
    (finalize_question st).isOk = (parse_h2_title st.current_h2_text).isOk := by
  unfold finalize_question
  cases h : parse_h2_title st.current_h2_text with
  | ok v => simp [h, Except.isOk, Except.toBool, Bind.bind, Except.bind]
  | error e => simp [h, Except.isOk, Except.toBool, Bind.bind, Except.bind]

/-! ## Claim C3 — hash guard on load -/

/-- C3: loading a snapshot whose recorded quiz hash differs from the live
quiz hash fails with the document-changed error; the session is never
populated from it. -/
theorem C3_hash_guard (doc : SavedDoc) (st : AppState)
    (h : doc.quiz_file_hash ≠ st.quiz.quiz_hash) :
    load_state doc st =
      Except.error "Quiz file has changed since last session. Use --clear to reset." := by
  simp [load_state, h]

/-- Witness for C3 at a concrete stale snapshot. -/
theorem C3_hash_guard_witness :
    docStale.quiz_file_hash ≠ (AppState.new quizA).quiz.quiz_hash ∧
      load_state docStale (AppState.new quizA) =
        Except.error "Quiz file has changed since last session. Use --clear to reset." :=
  ⟨by decide, C3_hash_guard docStale (AppState.new quizA) (by decide)⟩

/-! ## Claim C7 — done requires an answer -/

/-- The `has_answer` test of `toggle_done`: for a current Short/Long
question the live edit buffer must be non-empty, otherwise the answers
map must hold an entry. -/
def hasCurrentAnswer (st : AppState) : Bool :=
  if (match st.cur_question with
      | some q => q.kind.isText
      | none => false) then
    !st.text_input.isEmpty
  else
    hmContains st.answers st.current_question_number

/-- C7: on a question with no current answer and no done mark,
`toggle_done` returns false and leaves the whole state unchanged, the
done mark in particular. -/
theorem C7_done_requires_answer (st : AppState)
    (hdone : hmGetD st.done_marks st.current_question_number false = false)
    (hans : hasCurrentAnswer st = false) :
    st.toggle_done = (false, st) ∧
      hmGetD (st.toggle_done).2.done_marks st.current_question_number false = false := by
  have hans2 := hans
  unfold hasCurrentAnswer at hans2
  have h : st.toggle_done = (false, st) := by
    unfold AppState.toggle_done
    simp [hdone, hans2]
  exact ⟨h, by rw [h]; exact hdone⟩

/-- Witness for C7: the fresh session on the sample quiz has no answer
for its first (short) question. -/
theorem C7_witness :
    hmGetD (AppState.new quizA).done_marks
        (AppState.new quizA).current_question_number false = false ∧
      hasCurrentAnswer (AppState.new quizA) = false ∧
      (AppState.new quizA).toggle_done = (false, AppState.new quizA) :=
  ⟨by decide, by decide,
    (C7_done_requires_answer (AppState.new quizA) (by decide) (by decide)).1⟩

/-! ## Claim C10 — double-toggled multi choice leaves an empty selection -/

/-- C10: toggling the same multi-choice twice leaves an Answer whose
selected list is empty in the session map, `question_status` reports
Answered, `toggle_done` succeeds, yet the serialized document writes a
null answer for that question. -/
theorem C10_empty_multi_selection :
    (let st := ((AppState.new quizM).toggle_multi_choice 0).toggle_multi_choice 0
     hmGet? st.answers 2 =
        some { answer_type := "multi", selected := some [],
               text := none, files := none } ∧
      st.question_status 2 = QuestionStatus.answered ∧
      (st.toggle_done).1 = true ∧
      (build_answers_doc st).questions_doc.map (fun sq => sq.answer) =
        [SavedAnswer.null]) := by
  decide

/-! ## Claims C4 and C5 — push retry behaviour -/

/-- C4: a push failure classified as a remote conflict terminates the
pipeline at once with the terminal already-submitted outcome: the
remaining trace is exactly the conflict event — no Retrying event for
that failure, no further attempt; on the first attempt this means zero
retries. -/
theorem C4_conflict_short_circuit :
    (∀ (pushFn : Nat → Except String Unit) (fuel attempt wait_secs elapsed : Nat)
        (e : String),
        pushFn (attempt + 1) = Except.error e →
        rsStartsWith e "CONFLICT:" = true →
        pushLoop pushFn (fuel + 1) attempt wait_secs elapsed = [PushEvent.conflict e]) ∧
    (∀ (pushFn : Nat → Except String Unit) (e : String),
        pushFn 1 = Except.error e →
        rsStartsWith e "CONFLICT:" = true →
        push_with_retry pushFn = [PushEvent.conflict e] ∧
          countRetrying (push_with_retry pushFn) = 0 ∧
          screenAfter (PushEvent.conflict e) = PushScreen.alreadySubmitted) := by
  have base : ∀ (pushFn : Nat → Except String Unit)
      (fuel attempt wait_secs elapsed : Nat) (e : String),
      pushFn (attempt + 1) = Except.error e →
      rsStartsWith e "CONFLICT:" = true →
      pushLoop pushFn (fuel + 1) attempt wait_secs elapsed = [PushEvent.conflict e] := by
    intro pushFn fuel attempt wait_secs elapsed e h1 h2
    simp [pushLoop, h1, h2]
  refine ⟨base, ?_⟩
  intro pushFn e h1 h2
  have h : pushLoop pushFn (999 + 1) 0 2 0 = [PushEvent.conflict e] :=
    base pushFn 999 0 2 0 e h1 h2
  have hp : push_with_retry pushFn = [PushEvent.conflict e] := h
  exact ⟨hp, by rw [hp]; rfl, rfl⟩

/-- Witness for C4: a collaborator that reports a conflict on every
attempt reaches the already-submitted outcome with zero retries. -/
theorem C4_witness :
    push_with_retry (fun _ => Except.error "CONFLICT:rejected") =
        [PushEvent.conflict "CONFLICT:rejected"] ∧
      countRetrying (push_with_retry (fun _ => Except.error "CONFLICT:rejected")) = 0 := by
  have h := C4_conflict_short_circuit.2 (fun _ => Except.error "CONFLICT:rejected")
    "CONFLICT:rejected" rfl (by decide)
  exact ⟨h.1, h.2.1⟩

lemma min_double_cap (x y : Nat) (hy : 1 ≤ y) :
    min (min x 30 * y) 30 = min (x * y) 30 := by
  rcases Nat.le_total x 30 with h | h
  · rw [Nat.min_eq_left h]
  · have h30 : 30 ≤ 30 * y := Nat.le_mul_of_pos_right 30 hy
    have hxy : 30 ≤ x * y :=
      le_trans h30 (Nat.mul_le_mul_right y h)
    rw [Nat.min_eq_right h, Nat.min_eq_right h30, Nat.min_eq_right hxy]

lemma pushLoop_retry_law (pushFn : Nat → Except String Unit) :
    ∀ (fuel attempt w el k a ws : Nat), 1 ≤ w → w ≤ 30 →
      kthRetry? (pushLoop pushFn fuel attempt w el) k = some (a, ws) →
      a = attempt + k + 1 ∧ ws = min (w * 2 ^ k) 30 := by
  intro fuel
  induction fuel with
  | zero =>
    intro attempt w el k a ws _ _ hk
    simp [pushLoop, kthRetry?] at hk
  | succ f ih =>
    intro attempt w el k a ws hw1 hw30 hk
    rw [pushLoop] at hk
    cases hpush : pushFn (attempt + 1) with
    | ok u =>
      simp only [hpush] at hk
      simp [kthRetry?, isRetrying] at hk
    | error e =>
      simp only [hpush] at hk
      by_cases hc : rsStartsWith e "CONFLICT:" = true
      · simp [hc, kthRetry?, isRetrying] at hk
      · rw [if_neg hc] at hk
        by_cases hel : el ≥ maxElapsed
        · rw [if_pos hel] at hk
          simp [kthRetry?, isRetrying] at hk
        · rw [if_neg hel] at hk
          cases k with
          | zero =>
            simp [kthRetry?, isRetrying] at hk
            refine ⟨by omega, ?_⟩
            rw [pow_zero, Nat.mul_one, Nat.min_eq_left hw30]
            omega
          | succ k =>
            have hk2 : kthRetry?
                (pushLoop pushFn f (attempt + 1) (min (w * 2) 30) (el + w)) k =
                some (a, ws) := by
              simpa [kthRetry?, isRetrying] using hk
            have hw1b : 1 ≤ min (w * 2) 30 := by
              refine Nat.le_min.mpr ⟨by omega, by norm_num⟩
            have hw30b : min (w * 2) 30 ≤ 30 := Nat.min_le_right _ _
            obtain ⟨ha, hws⟩ := ih (attempt + 1) (min (w * 2) 30) (el + w) k a ws hw1b hw30b hk2
            refine ⟨by omega, ?_⟩
            rw [hws, min_double_cap (w * 2) (2 ^ k) (Nat.one_le_two_pow)]
            congr 1
            rw [pow_succ]
            ring

lemma pushLoop_timeout_law (pushFn : Nat → Except String Unit)
    (hfail : ∀ n, ∃ e, pushFn n = Except.error e ∧ rsStartsWith e "CONFLICT:" = false) :
    ∀ (fuel : Nat), ∀ (w el attempt : Nat), 2 ≤ w → 1 ≤ fuel → 602 ≤ el + 2 * fuel →
      ∃ retrys, pushLoop pushFn fuel attempt w el = retrys ++ [PushEvent.timeout] ∧
        (∀ ev ∈ retrys, isRetrying ev = true) ∧ 600 ≤ el + sumWaits retrys := by
  intro fuel
  induction fuel with
  | zero => intro w el attempt _ hf _; omega
  | succ f ih =>
    intro w el attempt hw _ hbound
    obtain ⟨e, he, hce⟩ := hfail (attempt + 1)
    by_cases hel : el ≥ maxElapsed
    · refine ⟨[], ?_, by simp, ?_⟩
      · simp [pushLoop, he, hce, hel]
      · have : (600 : Nat) ≤ el := hel
        simp [sumWaits]
        omega
    · have hel2 : el < 600 := by
        simpa [maxElapsed] using Nat.lt_of_not_le hel
      obtain ⟨retrys, hrest, hall, hsum⟩ :=
        ih (min (w * 2) 30) (el + w) (attempt + 1)
          (Nat.le_min.mpr ⟨by omega, by norm_num⟩)
          (by omega)
          (by omega)
      refine ⟨PushEvent.retrying (attempt + 1) w el e :: retrys, ?_, ?_, ?_⟩
      · simp [pushLoop, he, hce, hel, hrest]
      · intro ev hev
        rcases List.mem_cons.mp hev with h | h
        · rw [h]; rfl
        · exact hall ev h
      · have : sumWaits (PushEvent.retrying (attempt + 1) w el e :: retrys) =
            w + sumWaits retrys := by
          simp [sumWaits]
        omega

/-- C5: the wait before the n-th retry is `min (2^n) 30` seconds (2 s
doubling, capped at 30 s); a collaborator that always fails non-conflict
drives the trace to the timeout event — the local-fallback outcome —
only after at least 600 s of cumulative waiting; and the two-failures-
then-success scenario produces exactly the two Retrying events with
waits 2 s and 4 s before succeeding. -/
theorem C5_backoff_schedule :
    (∀ (pushFn : Nat → Except String Unit) (k a ws : Nat),
        kthRetry? (push_with_retry pushFn) k = some (a, ws) →
        a = k + 1 ∧ ws = min (2 ^ (k + 1)) 30) ∧
    (∀ (pushFn : Nat → Except String Unit),
        (∀ n, ∃ e, pushFn n = Except.error e ∧ rsStartsWith e "CONFLICT:" = false) →
        ∃ retrys, push_with_retry pushFn = retrys ++ [PushEvent.timeout] ∧
          (∀ ev ∈ retrys, isRetrying ev = true) ∧ 600 ≤ sumWaits retrys ∧
          screenAfter PushEvent.timeout = PushScreen.saveLocal) ∧
    (∀ (pushFn : Nat → Except String Unit) (e1 e2 : String),
        pushFn 1 = Except.error e1 → rsStartsWith e1 "CONFLICT:" = false →
        pushFn 2 = Except.error e2 → rsStartsWith e2 "CONFLICT:" = false →
        pushFn 3 = Except.ok () →
        push_with_retry pushFn =
          [PushEvent.retrying 1 2 0 e1, PushEvent.retrying 2 4 2 e2,
           PushEvent.success] ∧
          countRetrying (push_with_retry pushFn) = 2) := by
  refine ⟨?_, ?_, ?_⟩
  · intro pushFn k a ws hk
    have h := pushLoop_retry_law pushFn 1000 0 2 0 k a ws (by norm_num) (by norm_num) hk
    refine ⟨by omega, ?_⟩
    rw [h.2]
    congr 1
    rw [pow_succ]
    ring
  · intro pushFn hfail
    obtain ⟨retrys, hr, hall, hsum⟩ :=
      pushLoop_timeout_law pushFn hfail 1000 2 0 0 (by norm_num) (by norm_num)
        (by norm_num)
    exact ⟨retrys, hr, hall, by simpa using hsum, rfl⟩
  · intro pushFn e1 e2 h1 hc1 h2 hc2 h3
    have hstep : push_with_retry pushFn =
        [PushEvent.retrying 1 2 0 e1, PushEvent.retrying 2 4 2 e2,
         PushEvent.success] := by
      show pushLoop pushFn 1000 0 2 0 = _
      rw [pushLoop]
      simp only [Nat.zero_add, h1, hc1]
      norm_num [maxElapsed]
      rw [pushLoop]
      simp only [h2, hc2]
      norm_num [maxElapsed]
      rw [pushLoop]
      simp [h3]
    exact ⟨hstep, by rw [hstep]; rfl⟩

/-- Witness for C5: a collaborator failing on the first two attempts and
succeeding on the third publishes after exactly two retries with waits
2 s and 4 s. -/
theorem C5_witness :
    push_with_retry
        (fun n => if n ≤ 2 then Except.error "NETWORK:down" else Except.ok ()) =
      [PushEvent.retrying 1 2 0 "NETWORK:down",
       PushEvent.retrying 2 4 2 "NETWORK:down", PushEvent.success] ∧
    countRetrying (push_with_retry
        (fun n => if n ≤ 2 then Except.error "NETWORK:down" else Except.ok ())) = 2 :=
  C5_backoff_schedule.2.2
    (fun n => if n ≤ 2 then Except.error "NETWORK:down" else Except.ok ())
    "NETWORK:down" "NETWORK:down" rfl (by decide) rfl (by decide) rfl

/-! ## Claim C6 — done and flag marks are mutually exclusive -/

lemma hmGet?_erase_ne (m : List (Nat × α)) (k n : Nat) (h : n ≠ k) :
    hmGet? (hmErase m k) n = hmGet? m n := by
  induction m with
  | nil => rfl
  | cons p rest ih =>
    rcases p with ⟨pk, pv⟩
    by_cases hp : pk = k
    · have hnp : ¬n = pk := by rw [hp]; exact h
      simp [hmErase, hmGet?, hp, hnp, h, ih]
    · by_cases hn : n = pk
      · simp [hmErase, hmGet?, hp, hn]
      · simp [hmErase, hmGet?, hp, hn, ih]

lemma hmGet?_insert (m : List (Nat × α)) (k : Nat) (v : α) (n : Nat) :
    hmGet? (hmInsert m k v) n = if n = k then some v else hmGet? m n := by
  by_cases h : n = k
  · simp [hmInsert, hmGet?, h]
  · simp [hmInsert, hmGet?, h, hmGet?_erase_ne m k n h]

lemma hmGetD_insert (m : List (Nat × α)) (k : Nat) (v : α) (n : Nat) (d : α) :
    hmGetD (hmInsert m k v) n d = if n = k then v else hmGetD m n d := by
  unfold hmGetD
  rw [hmGet?_insert]
  by_cases h : n = k <;> simp [h]

/-- The done/flag maps never both hold `true` at a key. -/
def MutexMaps (dm fl : List (Nat × Bool)) : Prop :=
  ∀ n, hmGetD dm n false = false ∨ hmGetD fl n false = false

/-- The invariant of the claim: no question carries both marks. -/
def MutexInv (st : AppState) : Prop :=
  MutexMaps st.done_marks st.flags

lemma mutexMaps_done_false (dm fl : List (Nat × Bool)) (k : Nat)
    (h : MutexMaps dm fl) : MutexMaps (hmInsert dm k false) fl := by
  intro n
  by_cases hn : n = k
  · left; simp [hmGetD_insert, hn]
  · rcases h n with hh | hh
    · left; rw [hmGetD_insert]; simpa [hn] using hh
    · right; exact hh

lemma mutexMaps_flag_false (dm fl : List (Nat × Bool)) (k : Nat)
    (h : MutexMaps dm fl) : MutexMaps dm (hmInsert fl k false) := by
  intro n
  by_cases hn : n = k
  · right; simp [hmGetD_insert, hn]
  · rcases h n with hh | hh
    · left; exact hh
    · right; rw [hmGetD_insert]; simpa [hn] using hh

lemma mutexMaps_done_true (dm fl : List (Nat × Bool)) (k : Nat)
    (h : MutexMaps dm fl) :
    MutexMaps (hmInsert dm k true) (hmInsert fl k false) := by
  intro n
  by_cases hn : n = k
  · right; simp [hmGetD_insert, hn]
  · rcases h n with hh | hh
    · left; rw [hmGetD_insert]; simpa [hn] using hh
    · right; rw [hmGetD_insert]; simpa [hn] using hh

lemma mutexMaps_flag_true (dm fl : List (Nat × Bool)) (k : Nat)
    (h : MutexMaps dm fl) :
    MutexMaps (hmInsert dm k false) (hmInsert fl k true) := by
  intro n
  by_cases hn : n = k
  · left; simp [hmGetD_insert, hn]
  · rcases h n with hh | hh
    · left; rw [hmGetD_insert]; simpa [hn] using hh
    · right; rw [hmGetD_insert]; simpa [hn] using hh

lemma mutex_save_text (st : AppState) (h : MutexInv st) :
    MutexInv st.save_current_text_input := by
  unfold AppState.save_current_text_input
  split
  · exact h
  next q =>
    split
    · split
      · exact h
      · exact mutexMaps_done_false _ _ _ h
    · split
      · exact h
      · exact mutexMaps_done_false _ _ _ h
    · exact h

lemma mutex_toggle_done (st : AppState) (h : MutexInv st) :
    MutexInv (st.toggle_done).2 := by
  simp only [AppState.toggle_done]
  split
  · exact mutexMaps_done_false _ _ _ h
  · split
    · split
      · exact h
      · exact mutexMaps_done_true _ _ _ (mutex_save_text st h)
    · split
      · exact h
      · exact mutexMaps_done_true _ _ _ (mutex_save_text st h)

lemma mutex_toggle_flag (st : AppState) (h : MutexInv st) :
    MutexInv st.toggle_flag := by
  simp only [AppState.toggle_flag]
  split
  · exact mutexMaps_flag_false _ _ _ h
  · exact mutexMaps_flag_true _ _ _ h

lemma mutex_load_text (st : AppState) (h : MutexInv st) :
    MutexInv st.load_text_input_for_current := by
  unfold AppState.load_text_input_for_current
  split
  · split
    · split
      · exact h
      · exact h
    · exact h
  · exact h

lemma mutex_navigate (st : AppState) (idx : Nat) (h : MutexInv st) :
    MutexInv (st.navigate_to idx) := by
  simp only [AppState.navigate_to]
  split
  · exact mutex_load_text _ (mutex_save_text st h)
  · exact h

lemma mutex_select_single (st : AppState) (idx : Nat) (h : MutexInv st) :
    MutexInv (st.select_single_choice idx) := by
  simp only [AppState.select_single_choice]
  split
  · split
    · split
      · exact h
      · exact h
    · exact h
  · exact h

lemma mutex_toggle_multi (st : AppState) (idx : Nat) (h : MutexInv st) :
    MutexInv (st.toggle_multi_choice idx) := by
  simp only [AppState.toggle_multi_choice]
  split
  · split
    · split
      · exact h
      · exact h
    · exact h
  · exact h

lemma mutex_applyOp (st : AppState) (op : SessionOp) (h : MutexInv st) :
    MutexInv (applyOp st op) := by
  cases op with
  | toggleDone => exact mutex_toggle_done st h
  | toggleFlag => exact mutex_toggle_flag st h
  | setText s => exact h
  | navigate idx => exact mutex_navigate st idx h
  | selectSingle idx => exact mutex_select_single st idx h
  | toggleMulti idx => exact mutex_toggle_multi st idx h
  | revealHint => exact h

lemma mutex_foldl (ops : List SessionOp) :
    ∀ st : AppState, MutexInv st → MutexInv (ops.foldl applyOp st) := by
  induction ops with
  | nil => intro st h; exact h
  | cons op rest ih =>
    intro st h
    exact ih (applyOp st op) (mutex_applyOp st op h)

/-- C6: after any sequence of session operations — in particular any
sequence of done/flag toggles — starting from the fresh session, no
question has both its done mark and its flag set. -/
theorem C6_done_flag_mutex (quiz : Quiz) (ops : List SessionOp) (n : Nat) :
    ¬(hmGetD (runOps quiz ops).done_marks n false = true ∧
        hmGetD (runOps quiz ops).flags n false = true) := by
  have hinv : MutexInv (runOps quiz ops) := by
    apply mutex_foldl
    intro k
    left
    rfl
  intro hcontra
  rcases hinv n with h | h
  · rw [hcontra.1] at h; exact Bool.true_eq_false.mp h
  · rw [hcontra.2] at h; exact Bool.true_eq_false.mp h

/-! ## Claim C9 — kind defaulting without choices -/

/-- Invariant carried through the event loop: finished questions of
multi-choice kind hold a nonempty choice list, and the pending
block-quote kind is never a multi-choice (the block-quote handler only
writes Short, Long or File). -/
def KindInv (st : ParseSt) : Prop :=
  (∀ q ∈ st.questions, ∀ cs, q.kind = QuestionKind.multiChoice cs → cs ≠ []) ∧
  (∀ cs, st.current_kind ≠ some (QuestionKind.multiChoice cs))

lemma finalize_kindInv (st st2 : ParseSt) (h : KindInv st)
    (hs : finalize_question st = Except.ok st2) : KindInv st2 := by
  unfold finalize_question at hs
  cases ht : parse_h2_title st.current_h2_text with
  | error e => simp [ht, Bind.bind, Except.bind] at hs
  | ok v =>
    simp only [ht, Bind.bind, Except.bind, Except.ok.injEq] at hs
    subst hs
    constructor
    · intro q hq cs hkind
      rcases List.mem_append.mp hq with hold | hnew
      · exact h.1 q hold cs hkind
      · simp only [List.mem_singleton] at hnew
        subst hnew
        simp only at hkind
        by_cases hch : !st.current_choices.isEmpty
        · rw [if_pos hch] at hkind
          by_cases hm : rsContains v.2 "(Multi)" = true
          · rw [if_pos hm] at hkind
            cases hkind
            simpa using hch
          · rw [if_neg hm] at hkind
            cases hkind
        · rw [if_neg hch] at hkind
          cases hck : st.current_kind with
          | none => rw [hck] at hkind; cases hkind
          | some k =>
            rw [hck] at hkind
            simp only [Option.getD_some] at hkind
            exact absurd (by rw [hck, hkind]) (h.2 cs)
    · intro cs
      simp

lemma step_kindInv (st st2 : ParseSt) (ev : MdEvent) (h : KindInv st)
    (hs : stepEvent st ev = Except.ok st2) : KindInv st2 := by
  cases ev with
  | startHeading level =>
    simp only [stepEvent] at hs
    by_cases h1 : level = 1
    · rw [if_pos h1] at hs
      cases hs
      exact ⟨h.1, h.2⟩
    · rw [if_neg h1] at hs
      by_cases h2 : level = 2
      · rw [if_pos h2] at hs
        by_cases hseen : st.seen_h2 = true
        · simp only [hseen, if_pos, Bind.bind, Except.bind] at hs
          cases hfin : finalize_question st with
          | error e => rw [hfin] at hs; cases hs
          | ok stf =>
            rw [hfin] at hs
            simp only [Except.ok.injEq] at hs
            subst hs
            have hf := finalize_kindInv st stf h hfin
            exact ⟨hf.1, hf.2⟩
        · simp only [Bool.not_eq_true] at hseen
          simp only [hseen, Bind.bind, Except.bind, Except.ok.injEq] at hs
          cases hs
          exact ⟨h.1, h.2⟩
      · rw [if_neg h2] at hs
        cases hs
        exact h
  | endHeading level =>
    simp only [stepEvent] at hs
    by_cases h1 : level = 1
    · rw [if_pos h1] at hs; cases hs; exact ⟨h.1, h.2⟩
    · rw [if_neg h1] at hs
      by_cases h2 : level = 2
      · rw [if_pos h2] at hs; cases hs; exact ⟨h.1, h.2⟩
      · rw [if_neg h2] at hs; cases hs; exact h
  | startBlockQuote =>
    simp only [stepEvent] at hs; cases hs; exact ⟨h.1, h.2⟩
  | endBlockQuote =>
    simp only [stepEvent] at hs
    split at hs
    · split at hs
      · cases hs; exact ⟨h.1, by simp⟩
      · split at hs
        · cases hs; exact ⟨h.1, by simp⟩
        · split at hs
          · cases hs; exact ⟨h.1, by simp⟩
          · cases hs; exact ⟨h.1, h.2⟩
    · cases hs; exact ⟨h.1, h.2⟩
  | startList => simp only [stepEvent] at hs; cases hs; exact h
  | endList => simp only [stepEvent] at hs; cases hs; exact h
  | startItem =>
    simp only [stepEvent] at hs; cases hs; exact ⟨h.1, h.2⟩
  | endItem =>
    simp only [stepEvent] at hs
    cases hs
    split
    · split
      · exact ⟨h.1, h.2⟩
      · split
        · exact ⟨h.1, h.2⟩
        · exact ⟨h.1, h.2⟩
    · exact ⟨h.1, h.2⟩
  | taskListMarker checked =>
    simp only [stepEvent] at hs; cases hs; exact ⟨h.1, h.2⟩
  | startParagraph =>
    simp only [stepEvent] at hs; cases hs; exact ⟨h.1, h.2⟩
  | endParagraph =>
    simp only [stepEvent] at hs
    split at hs
    · split at hs
      · cases hs; exact ⟨h.1, h.2⟩
      · cases hs; exact ⟨h.1, h.2⟩
    · split at hs
      · split at hs
        · cases hs; exact ⟨h.1, h.2⟩
        · cases hs; exact ⟨h.1, h.2⟩
      · split at hs
        · split at hs
          · cases hs; exact ⟨h.1, h.2⟩
          · split at hs
            · cases hs; exact ⟨h.1, h.2⟩
            · split at hs
              · cases hs; exact ⟨h.1, h.2⟩
              · split at hs
                · cases hs; exact ⟨h.1, h.2⟩
                · cases hs; exact ⟨h.1, h.2⟩
        · cases hs; exact ⟨h.1, h.2⟩
  | startCodeBlock =>
    simp only [stepEvent] at hs; cases hs; exact ⟨h.1, h.2⟩
  | endCodeBlock =>
    simp only [stepEvent] at hs
    split at hs
    · cases hs; exact ⟨h.1, h.2⟩
    · cases hs; exact ⟨h.1, h.2⟩
  | text t =>
    simp only [stepEvent] at hs
    by_cases hh1 : st.in_h1 = true
    · rw [if_pos hh1] at hs; cases hs; exact ⟨h.1, h.2⟩
    · rw [if_neg hh1] at hs
      by_cases hh2 : st.in_h2 = true
      · rw [if_pos hh2] at hs; cases hs; exact ⟨h.1, h.2⟩
      · rw [if_neg hh2] at hs
        by_cases hcb : st.in_code_block = true
        · rw [if_pos hcb] at hs; cases hs; exact ⟨h.1, h.2⟩
        · rw [if_neg hcb] at hs
          by_cases hbq : st.in_blockquote = true
          · rw [if_pos hbq] at hs; cases hs; exact ⟨h.1, h.2⟩
          · rw [if_neg hbq] at hs
            by_cases hli : st.in_list_item = true
            · rw [if_pos hli] at hs; cases hs; exact ⟨h.1, h.2⟩
            · rw [if_neg hli] at hs
              by_cases hpa : st.in_paragraph = true
              · rw [if_pos hpa] at hs
                by_cases hc1 : startsWithC (trimC t.data) ":::hint".data = true
                · rw [if_pos hc1] at hs; cases hs; exact ⟨h.1, h.2⟩
                · rw [if_neg hc1] at hs
                  by_cases hc2 :
                      (trimC t.data = ":::".data && st.in_hint_block) = true
                  · rw [if_pos hc2] at hs
                    by_cases hc3 : (!st.hint_text.isEmpty && st.seen_h2) = true
                    · rw [if_pos hc3] at hs; cases hs; exact ⟨h.1, h.2⟩
                    · rw [if_neg hc3] at hs; cases hs; exact ⟨h.1, h.2⟩
                  · rw [if_neg hc2] at hs
                    by_cases hc4 : st.in_hint_block = true
                    · rw [if_pos hc4] at hs; cases hs; exact ⟨h.1, h.2⟩
                    · rw [if_neg hc4] at hs; cases hs; exact ⟨h.1, h.2⟩
              · rw [if_neg hpa] at hs; cases hs; exact h
  | inlineCode c =>
    simp only [stepEvent] at hs
    split at hs
    · cases hs; exact ⟨h.1, h.2⟩
    · split at hs
      · cases hs; exact ⟨h.1, h.2⟩
      · cases hs; exact h
  | softBreak =>
    simp only [stepEvent] at hs
    split at hs
    · cases hs; exact ⟨h.1, h.2⟩
    · cases hs; exact h
  | hardBreak =>
    simp only [stepEvent] at hs
    split at hs
    · cases hs; exact ⟨h.1, h.2⟩
    · cases hs; exact h
  | rule => simp only [stepEvent] at hs; cases hs; exact h

lemma foldlM_kindInv (evs : List MdEvent) :
    ∀ (st st2 : ParseSt), KindInv st →
      List.foldlM stepEvent st evs = Except.ok st2 → KindInv st2 := by
  induction evs with
  | nil =>
    intro st st2 h hf
    simp only [List.foldlM_nil] at hf
    cases hf
    exact h
  | cons ev rest ih =>
    intro st st2 h hf
    rw [List.foldlM_cons] at hf
    cases hstep : stepEvent st ev with
    | error e => simp [hstep, Bind.bind, Except.bind] at hf
    | ok s1 =>
      rw [hstep] at hf
      simp only [Bind.bind, Except.bind] at hf
      exact ih s1 st2 (step_kindInv st s1 ev h hstep) hf

/-- C9: with no checkbox choices collected, a finalized question takes
the block-quoted kind if one was seen and Short otherwise — the
`(Multi)` title marker plays no part; consequently no question produced
by `parse_body` has multi-choice kind with an empty choice list. -/
theorem C9_kind_defaulting :
    (∀ (st : ParseSt) (n : Nat) (t : String),
        st.current_choices = [] →
        parse_h2_title st.current_h2_text = Except.ok (n, t) →
        finalize_question st = Except.ok { st with
          questions := st.questions ++
            [{ number := n, title := t, body_lines := st.current_body,
               kind := st.current_kind.getD QuestionKind.short,
               hints := st.current_hints }],
          current_choices := [], current_kind := none, current_hints := [],
          current_body := [], choice_index := 0 }) ∧
    (∀ (events : List MdEvent) (r : String × List String × List Question),
        parse_body events = Except.ok r →
        ∀ q ∈ r.2.2, ∀ cs, q.kind = QuestionKind.multiChoice cs → cs ≠ []) := by
  constructor
  · intro st n t hch ht
    unfold finalize_question
    rw [ht]
    simp only [Bind.bind, Except.bind, hch, List.isEmpty_nil, Bool.not_true,
      Bool.false_eq_true, if_false]
  · intro events r hp q hq cs hkind
    unfold parse_body at hp
    cases hfold : List.foldlM stepEvent initParseSt events with
    | error e => simp [hfold, Bind.bind, Except.bind] at hp
    | ok stf =>
      have hinv : KindInv stf := by
        refine foldlM_kindInv events initParseSt stf ?_ hfold
        exact ⟨by simp [initParseSt], by simp [initParseSt]⟩
      rw [hfold] at hp
      simp only [Bind.bind, Except.bind] at hp
      by_cases hseen : stf.seen_h2 = true
      · rw [if_pos hseen] at hp
        cases hfin : finalize_question stf with
        | error e => simp [hfin] at hp
        | ok stg =>
          rw [hfin] at hp
          simp only [Except.ok.injEq] at hp
          have hg := finalize_kindInv stf stg hinv hfin
          have hr : r.2.2 = stg.questions := by rw [← hp]
          rw [hr] at hq
          exact hg.1 q hq cs hkind
      · rw [if_neg hseen] at hp
        simp only [Except.ok.injEq] at hp
        have hr : r.2.2 = stf.questions := by rw [← hp]
        rw [hr] at hq
        exact hinv.1 q hq cs hkind

/-- Witness for C9: a heading carrying the `(Multi)` marker but no
choices finalizes to a Short question, and the parsed one-question
`(Multi)`-titled document indeed contains no multi-choice question. -/
theorem C9_witness :
    finalize_question { initParseSt with current_h2_text := "7. Pick (Multi)" } =
      Except.ok { initParseSt with
        current_h2_text := "7. Pick (Multi)",
        questions := [{ number := 7, title := "Pick (Multi)", body_lines := [],
                        kind := QuestionKind.short, hints := [] }] } ∧
    (∀ cs, ({ number := 7, title := "Pick (Multi)", body_lines := [],
              kind := QuestionKind.short, hints := [] } : Question).kind =
        QuestionKind.multiChoice cs → cs ≠ []) := by
  constructor
  · exact C9_kind_defaulting.1
      { initParseSt with current_h2_text := "7. Pick (Multi)" } 7 "Pick (Multi)"
      rfl (by decide)
  · intro cs hk
    exact C9_kind_defaulting.2
      [MdEvent.startHeading 2, MdEvent.text "7. Pick (Multi)", MdEvent.endHeading 2]
      ("", [], [{ number := 7, title := "Pick (Multi)", body_lines := [],
                  kind := QuestionKind.short, hints := [] }])
      (by decide) _ (by simp) cs hk

/-! ## Claim C8 — size parsing -/

lemma isDigit_toUpper {c : Char} (h : c.isDigit = true) : c.toUpper = c := by
  simp [Char.isDigit] at h
  simp [Char.toUpper, Char.isLower]
  intro h1
  exfalso
  have h2 := h.2
  change (97 : UInt32) ≤ c.val at h1
  have h1n : (97 : Nat) ≤ c.val.toNat := h1
  have h2n : c.val.toNat ≤ 57 := h2
  omega

lemma isDigit_not_ws {c : Char} (h : c.isDigit = true) : isWs c = false := by
  cases hw : isWs c
  · rfl
  · exfalso
    rcases (by simpa [isWs, or_assoc] using hw :
        c = ' ' ∨ c = '\t' ∨ c = '\n' ∨ c = '\x0d') with
      h1 | h1 | h1 | h1 <;> (subst h1; exact absurd h (by decide))

lemma isWs_toUpper {c : Char} (h : isWs c = true) : c.toUpper = c := by
  rcases (by simpa [isWs, or_assoc] using h :
      c = ' ' ∨ c = '\t' ∨ c = '\n' ∨ c = '\x0d') with
    h1 | h1 | h1 | h1 <;> (subst h1; decide)

lemma digit_ne {c : Char} (h : c.isDigit = true) (x : Char)
    (hx : x.isDigit = false) : c ≠ x := by
  intro he
  subst he
  rw [h] at hx
  cases hx

lemma trimLeftC_eq_self {cs : List Char} (h : ∀ c ∈ cs, isWs c = false) :
    trimLeftC cs = cs := by
  cases cs with
  | nil => rfl
  | cons c rest =>
    unfold trimLeftC
    rw [h c (List.mem_cons_self c rest)]
    simp

lemma trimC_eq_self {cs : List Char} (h : ∀ c ∈ cs, isWs c = false) :
    trimC cs = cs := by
  unfold trimC trimRightC
  rw [trimLeftC_eq_self h,
    trimLeftC_eq_self (fun c hc => h c (List.mem_reverse.mp hc)),
    List.reverse_reverse]

lemma upperC_digits {ds : List Char} (h : ∀ c ∈ ds, c.isDigit = true) :
    upperC ds = ds := by
  induction ds with
  | nil => rfl
  | cons c rest ih =>
    unfold upperC at *
    simp only [List.map_cons]
    rw [isDigit_toUpper (h c (List.mem_cons_self c rest)),
      ih (fun x hx => h x (List.mem_cons_of_mem c hx))]

lemma not_ws_of_upperC {sfx lit : List Char} (hu : upperC sfx = lit)
    (hlit : ∀ x ∈ lit, isWs x = false) : ∀ c ∈ sfx, isWs c = false := by
  intro c hc
  cases hw : isWs c
  · rfl
  · exfalso
    have hcu := isWs_toUpper hw
    have hm : c.toUpper ∈ upperC sfx := List.mem_map_of_mem _ hc
    rw [hu, hcu] at hm
    exact absurd hw (by simp [hlit c hm])

lemma startsWithC_right_nil (l : List Char) : startsWithC l [] = true := by
  cases l <;> rfl

lemma startsWithC_append_self (p rest : List Char) :
    startsWithC (p ++ rest) p = true := by
  induction p with
  | nil => simpa using startsWithC_right_nil rest
  | cons c ps ih => simp [startsWithC, ih]

lemma stripSuffixC_append (l s : List Char) : stripSuffixC (l ++ s) s = some l := by
  unfold stripSuffixC
  rw [List.reverse_append, startsWithC_append_self]
  simp [List.length_append, List.take_left]

lemma stripSuffixC_eq_none {cs sfx : List Char}
    (h : startsWithC cs.reverse sfx.reverse = false) :
    stripSuffixC cs sfx = none := by
  simp [stripSuffixC, h]

lemma parseUIntC_digits (w : Nat) (ds : List Char) (h : allDigitsC ds = true)
    (hb : natOfDigitsC ds < 2 ^ w) : parseUIntC w ds = some (natOfDigitsC ds) := by
  cases ds with
  | nil => simp [allDigitsC] at h
  | cons c rest =>
    have hc : c.isDigit = true := by
      have hd2 := h
      simp only [allDigitsC, Bool.and_eq_true, List.all_eq_true] at hd2
      exact hd2.2 c (List.mem_cons_self c rest)
    have hplus : c ≠ '+' := digit_ne hc '+' (by decide)
    unfold parseUIntC
    split
    next heq =>
      exfalso
      injection heq with h1 h2
      exact hplus h1
    next other heq =>
      simp [h, hb]

/-- C8: the three sample sizes parse as stated; in general a digit
string with an optional case-insensitive `B`/`KB`/`MB`/`GB` suffix is
scaled by the matching binary multiple (below the `u64` overflow range);
and a `max_size` value `parse_size` cannot read leaves the constraint
unset — `parse_file_constraints` never fails, it only ever stores a
`parse_size` result in `max_size`. -/
theorem C8_size_parsing :
    (parse_size "5MB" = some 5242880 ∧ parse_size "2GB" = some 2147483648 ∧
      parse_size "100" = some 100) ∧
    (∀ (ds sfx : List Char) (mult : Nat), allDigitsC ds = true →
      natOfDigitsC ds < 2 ^ 34 →
      ((sfx = [] ∧ mult = 1) ∨ (upperC sfx = ['B'] ∧ mult = 1) ∨
        (upperC sfx = ['K', 'B'] ∧ mult = 1024) ∨
        (upperC sfx = ['M', 'B'] ∧ mult = 1048576) ∨
        (upperC sfx = ['G', 'B'] ∧ mult = 1073741824)) →
      parse_size ⟨ds ++ sfx⟩ = some (natOfDigitsC ds * mult)) ∧
    (∀ text : String, (parse_file_constraints text).max_size = none ∨
      ∃ v, (parse_file_constraints text).max_size = parse_size v) ∧
    (parse_file_constraints "file(max_size: 7q7, max_files: 2)" =
      { max_files := some 2, max_size := none, accept := [] }) := by
  refine ⟨⟨by decide, by decide, by decide⟩, ?_, ?_, by decide⟩
  · intro ds sfx mult hd hb hcase
    have hall : ∀ c ∈ ds, c.isDigit = true := by
      have hd2 := hd
      simp only [allDigitsC, Bool.and_eq_true, List.all_eq_true] at hd2
      exact fun c hc => hd2.2 c hc
    have hWsds : ∀ c ∈ ds, isWs c = false := fun c hc => isDigit_not_ws (hall c hc)
    have hne : ds ≠ [] := by
      intro he; subst he; simp [allDigitsC] at hd
    obtain ⟨dh, dt, hrev⟩ : ∃ h t, ds.reverse = h :: t := by
      cases hr : ds.reverse with
      | nil => exact absurd (List.reverse_eq_nil_iff.mp hr) hne
      | cons a b => exact ⟨a, b, rfl⟩
    have hdh : dh.isDigit = true := by
      refine hall dh (List.mem_reverse.mp ?_)
      rw [hrev]; exact List.mem_cons_self dh dt
    have htrimds : trimC ds = ds := trimC_eq_self hWsds
    have hupds : upperC ds = ds := upperC_digits hall
    have hb64 : natOfDigitsC ds < 2 ^ 64 :=
      lt_of_lt_of_le hb (Nat.pow_le_pow_right (by norm_num) (by norm_num))
    have hparse : parseUIntC 64 (trimC ds) = some (natOfDigitsC ds) := by
      rw [htrimds]; exact parseUIntC_digits 64 ds hd hb64
    have hdata : ∀ l : List Char, (⟨l⟩ : String).data = l := fun _ => rfl
    have hBne : dh ≠ 'B' := digit_ne hdh 'B' (by decide)
    have hGne : dh ≠ 'G' := digit_ne hdh 'G' (by decide)
    have hMne : dh ≠ 'M' := digit_ne hdh 'M' (by decide)
    have hKne : dh ≠ 'K' := digit_ne hdh 'K' (by decide)
    rcases hcase with ⟨hsfx, hmult⟩ | ⟨hsfx, hmult⟩ | ⟨hsfx, hmult⟩ |
      ⟨hsfx, hmult⟩ | ⟨hsfx, hmult⟩ <;> subst hmult
    · -- no suffix
      subst hsfx
      have hgb : stripSuffixC ds ['G', 'B'] = none :=
        stripSuffixC_eq_none (by
          rw [hrev]; simp [startsWithC, startsWithC_right_nil, hBne])
      have hmb : stripSuffixC ds ['M', 'B'] = none :=
        stripSuffixC_eq_none (by
          rw [hrev]; simp [startsWithC, startsWithC_right_nil, hBne])
      have hkb : stripSuffixC ds ['K', 'B'] = none :=
        stripSuffixC_eq_none (by
          rw [hrev]; simp [startsWithC, startsWithC_right_nil, hBne])
      have hb1 : stripSuffixC ds ['B'] = none :=
        stripSuffixC_eq_none (by
          rw [hrev]; simp [startsWithC, startsWithC_right_nil, hBne])
      simp only [parse_size, hdata, List.append_nil, htrimds, hupds, hgb, hmb,
        hkb, hb1]
      rw [htrimds] at hparse
      rw [hparse, Nat.mul_one]
    · -- suffix B
      have hWsSfx := not_ws_of_upperC hsfx (by decide)
      have htrim : trimC (ds ++ sfx) = ds ++ sfx := by
        refine trimC_eq_self ?_
        intro c hc
        rcases List.mem_append.mp hc with hcl | hcr
        · exact hWsds c hcl
        · exact hWsSfx c hcr
      have hup : upperC (ds ++ sfx) = ds ++ ['B'] := by
        unfold upperC at *
        rw [List.map_append, hupds, hsfx]
      have hgb : stripSuffixC (ds ++ ['B']) ['G', 'B'] = none :=
        stripSuffixC_eq_none (by
          rw [List.reverse_append, hrev]
          simp [startsWithC, startsWithC_right_nil, hGne])
      have hmb : stripSuffixC (ds ++ ['B']) ['M', 'B'] = none :=
        stripSuffixC_eq_none (by
          rw [List.reverse_append, hrev]
          simp [startsWithC, startsWithC_right_nil, hMne])
      have hkb : stripSuffixC (ds ++ ['B']) ['K', 'B'] = none :=
        stripSuffixC_eq_none (by
          rw [List.reverse_append, hrev]
          simp [startsWithC, startsWithC_right_nil, hKne])
      simp only [parse_size, hdata, htrim, hup, hgb, hmb, hkb,
        stripSuffixC_append ds ['B']]
      rw [hparse, Nat.mul_one]
    · -- suffix KB
      have hWsSfx := not_ws_of_upperC hsfx (by decide)
      have htrim : trimC (ds ++ sfx) = ds ++ sfx := by
        refine trimC_eq_self ?_
        intro c hc
        rcases List.mem_append.mp hc with hcl | hcr
        · exact hWsds c hcl
        · exact hWsSfx c hcr
      have hup : upperC (ds ++ sfx) = ds ++ ['K', 'B'] := by
        unfold upperC at *
        rw [List.map_append, hupds, hsfx]
      have hgb : stripSuffixC (ds ++ ['K', 'B']) ['G', 'B'] = none :=
        stripSuffixC_eq_none (by
          rw [List.reverse_append]
          simp [startsWithC, startsWithC_right_nil])
      have hmb : stripSuffixC (ds ++ ['K', 'B']) ['M', 'B'] = none :=
        stripSuffixC_eq_none (by
          rw [List.reverse_append]
          simp [startsWithC, startsWithC_right_nil])
      simp only [parse_size, hdata, htrim, hup, hgb, hmb,
        stripSuffixC_append ds ['K', 'B']]
      rw [hparse]
      rfl
    · -- suffix MB
      have hWsSfx := not_ws_of_upperC hsfx (by decide)
      have htrim : trimC (ds ++ sfx) = ds ++ sfx := by
        refine trimC_eq_self ?_
        intro c hc
        rcases List.mem_append.mp hc with hcl | hcr
        · exact hWsds c hcl
        · exact hWsSfx c hcr
      have hup : upperC (ds ++ sfx) = ds ++ ['M', 'B'] := by
        unfold upperC at *
        rw [List.map_append, hupds, hsfx]
      have hgb : stripSuffixC (ds ++ ['M', 'B']) ['G', 'B'] = none :=
        stripSuffixC_eq_none (by
          rw [List.reverse_append]
          simp [startsWithC, startsWithC_right_nil])
      simp only [parse_size, hdata, htrim, hup, hgb,
        stripSuffixC_append ds ['M', 'B']]
      rw [hparse]
      show some (natOfDigitsC ds * 1024 * 1024) = _
      rw [Nat.mul_assoc]
    · -- suffix GB
      have hWsSfx := not_ws_of_upperC hsfx (by decide)
      have htrim : trimC (ds ++ sfx) = ds ++ sfx := by
        refine trimC_eq_self ?_
        intro c hc
        rcases List.mem_append.mp hc with hcl | hcr
        · exact hWsds c hcl
        · exact hWsSfx c hcr
      have hup : upperC (ds ++ sfx) = ds ++ ['G', 'B'] := by
        unfold upperC at *
        rw [List.map_append, hupds, hsfx]
      simp only [parse_size, hdata, htrim, hup,
        stripSuffixC_append ds ['G', 'B']]
      rw [hparse]
      show some (natOfDigitsC ds * 1024 * 1024 * 1024) = _
      rw [Nat.mul_assoc, Nat.mul_assoc]
  · intro text
    unfold parse_file_constraints
    cases hfind : findCharC text.data '(' with
    | none => left; rfl
    | some start =>
      cases hrfind : rfindCharC text.data ')' with
      | none => left; rfl
      | some stop =>
        have inv : ∀ (params : List (List Char)) (acc : FileConstraints),
            (acc.max_size = none ∨ ∃ v, acc.max_size = parse_size v) →
            ((params.foldl applyConstraintParam acc).max_size = none ∨
              ∃ v, (params.foldl applyConstraintParam acc).max_size = parse_size v) := by
          intro params
          induction params with
          | nil => intro acc h; exact h
          | cons p ps ih =>
            intro acc h
            refine ih (applyConstraintParam acc p) ?_
            cases hsp : splitOnceC (trimC p) ':' with
            | none => unfold applyConstraintParam; rw [hsp]; exact h
            | some kv =>
              obtain ⟨key, value⟩ := kv
              simp only [applyConstraintParam, hsp]
              by_cases h1 : trimC key = ['m', 'a', 'x', '_', 'f', 'i', 'l', 'e', 's']
              · rw [if_pos h1]
                exact h
              · rw [if_neg h1]
                by_cases h2 : trimC key = ['m', 'a', 'x', '_', 's', 'i', 'z', 'e']
                · rw [if_pos h2]
                  right
                  exact ⟨⟨trimC value⟩, rfl⟩
                · rw [if_neg h2]
                  by_cases h3 : trimC key = ['a', 'c', 'c', 'e', 'p', 't']
                  · rw [if_pos h3]
                    exact h
                  · rw [if_neg h3]
                    exact h
        exact inv _ FileConstraints.default (Or.inl rfl)

/-- Witness for C8: the general suffix law at the concrete size "77kB". -/
theorem C8_witness :
    parse_size ⟨['7', '7'] ++ ['k', 'B']⟩ = some (natOfDigitsC ['7', '7'] * 1024) :=
  C8_size_parsing.2.1 ['7', '7'] ['k', 'B'] 1024 (by decide) (by decide)
    (Or.inr (Or.inr (Or.inl ⟨by decide, rfl⟩)))

/-! ## Claim C2 — snapshot round trip

The round trip is not exact: the writer stores only the boolean
`hint_used`, so any positive hint count loads back as 1; a long
answer's text comes back as its literal-block normalization (e.g.
`"hello"` loads as `"hello\n"`); and file paths come back rewritten to
`files/q<n>/<name>`.  The amended statement says exactly that, for
snapshots of well-formed sessions: stored answers match their question
kinds in shape (a single choice holds exactly one label, a multi
selection and a file list are nonempty), the acknowledgment name is
nonempty, the navigation index is in range, and question numbers are
distinct.  Two further shape conditions confine the claims to inputs
where the modelled YAML layer is exact: long texts contain no carriage
return (a stray CR is itself a YAML line break) and do not open with an
indented line (which would shift the block indentation the parser
detects), and file paths do not end in a `.` component (where
`Path::file_name` normalizes and the model does not). -/

/-- Long texts on which the literal-block write/parse layer is exactly
the lines-plus-clip model `encodeLongText`. -/
def longTextOk (t : String) : Bool :=
  !t.data.contains '\r' &&
    (match (rsLinesC t.data).dropWhile List.isEmpty with
     | l :: _ =>
       match l with
       | c :: _ => !(c = ' ' || c = '\t')
       | [] => true
     | [] => true)

/-- Paths whose final non-empty component is not `.`, on which
`rsFileName` agrees with Rust `Path::file_name`. -/
def pathFileNameOk (f : String) : Bool :=
  match ((splitC f.data '/').filter (fun cs => !cs.isEmpty)).getLast? with
  | some cs => !(cs = ['.'])
  | none => true

/-- Shape of a stored answer as a well-formed session holds it for a
question of the given kind. -/
def answerShapeOk (q : Question) (a : Answer) : Bool :=
  match q.kind with
  | .singleChoice _ =>
    a.answer_type = "single" &&
      (match a.selected with | some [_] => true | _ => false) &&
      a.text = none && a.files = none
  | .multiChoice _ =>
    a.answer_type = "multi" &&
      (match a.selected with | some (_ :: _) => true | _ => false) &&
      a.text = none && a.files = none
  | .short =>
    a.answer_type = "short" && a.selected = none && a.text.isSome &&
      a.files = none
  | .long =>
    a.answer_type = "long" && a.selected = none &&
      (match a.text with
       | some t => longTextOk t
       | none => false) &&
      a.files = none
  | .file _ =>
    a.answer_type = "file" && a.selected = none && a.text = none &&
      (match a.files with
       | some (f :: fs) => (f :: fs).all pathFileNameOk
       | _ => false)

/-- Well-formedness of a live session, as reachable states satisfy it. -/
def sessionWF (st : AppState) : Prop :=
  st.current_question < st.quiz.questions.length ∧
  st.submitted_at ≠ some "unknown" ∧
  (match st.ack_data with
   | some a => a.name.isEmpty = false
   | none => True) ∧
  (st.quiz.questions.map (fun q => q.number)).Nodup ∧
  (∀ q ∈ st.quiz.questions,
    match hmGet? st.answers q.number with
    | some a => answerShapeOk q a = true
    | none => True)

/-- The value an answer reads back as after one save/load cycle: exact
for single, multi and short payloads; a long text passes through the
literal-block normalization, and file paths through the writer's
`files/q<n>/<name>` rewrite. -/
def loadedAnswer (k : QuestionKind) (number : Nat) (a : Answer) : Answer :=
  match k with
  | .long => { a with text := a.text.map encodeLongText }
  | .file _ =>
    { a with files := a.files.map (fun fs => fs.map (rewriteFilePath number)) }
  | _ => a

lemma restoredAnswer_built (stO : AppState) (q : Question)
    (hshape : match hmGet? stO.answers q.number with
      | some a => answerShapeOk q a = true
      | none => True) :
    restoredAnswer (buildSavedQuestion stO q) =
      (hmGet? stO.answers q.number).map (loadedAnswer q.kind q.number) := by
  cases haO : hmGet? stO.answers q.number with
  | none =>
    simp only [restoredAnswer, buildSavedQuestion, haO]
    cases q.kind <;> rfl
  | some a =>
    rcases a with ⟨atype, sel, tx, fl⟩
    have hsh : answerShapeOk q ⟨atype, sel, tx, fl⟩ = true := by
      rw [haO] at hshape; exact hshape
    cases hk : q.kind with
    | singleChoice cs =>
      simp only [answerShapeOk, hk, Bool.and_eq_true, decide_eq_true_eq] at hsh
      obtain ⟨⟨⟨hat, hsel⟩, htx⟩, hfl⟩ := hsh
      obtain ⟨l, hselv⟩ : ∃ l, sel = some [l] := by
        cases sel with
        | none => simp at hsel
        | some sl =>
          cases sl with
          | nil => simp at hsel
          | cons x xs =>
            cases xs with
            | nil => exact ⟨x, rfl⟩
            | cons y ys => simp at hsel
      subst hat htx hfl hselv
      simp only [restoredAnswer, buildSavedQuestion, haO, savedAnswerOf, hk,
        qtypeOf, loadedAnswer]
      rfl
    | multiChoice cs =>
      simp only [answerShapeOk, hk, Bool.and_eq_true, decide_eq_true_eq] at hsh
      obtain ⟨⟨⟨hat, hsel⟩, htx⟩, hfl⟩ := hsh
      obtain ⟨x, xs, hselv⟩ : ∃ x xs, sel = some (x :: xs) := by
        cases sel with
        | none => simp at hsel
        | some sl =>
          cases sl with
          | nil => simp at hsel
          | cons x xs => exact ⟨x, xs, rfl⟩
      subst hat htx hfl hselv
      simp only [restoredAnswer, buildSavedQuestion, haO, savedAnswerOf, hk,
        qtypeOf, loadedAnswer]
      rfl
    | short =>
      simp only [answerShapeOk, hk, Bool.and_eq_true, decide_eq_true_eq,
        Option.isSome_iff_exists] at hsh
      obtain ⟨⟨⟨hat, hsel⟩, ⟨t, htxv⟩⟩, hfl⟩ := hsh
      subst hat hsel hfl htxv
      simp only [restoredAnswer, buildSavedQuestion, haO, savedAnswerOf, hk,
        qtypeOf, loadedAnswer]
      rfl
    | long =>
      simp only [answerShapeOk, hk, Bool.and_eq_true, decide_eq_true_eq] at hsh
      obtain ⟨⟨⟨hat, hsel⟩, htx⟩, hfl⟩ := hsh
      obtain ⟨t, htxv⟩ : ∃ t, tx = some t := by
        cases tx with
        | none => simp at htx
        | some t => exact ⟨t, rfl⟩
      subst hat hsel hfl htxv
      simp only [restoredAnswer, buildSavedQuestion, haO, savedAnswerOf, hk,
        qtypeOf, loadedAnswer]
      rfl
    | file fc =>
      simp only [answerShapeOk, hk, Bool.and_eq_true, decide_eq_true_eq] at hsh
      obtain ⟨⟨⟨hat, hsel⟩, htx⟩, hffl⟩ := hsh
      obtain ⟨f0, frest, hflv⟩ : ∃ f0 frest, fl = some (f0 :: frest) := by
        cases fl with
        | none => simp at hffl
        | some fs =>
          cases fs with
          | nil => simp at hffl
          | cons f0 frest => exact ⟨f0, frest, rfl⟩
      subst hat hsel htx hflv
      simp only [restoredAnswer, buildSavedQuestion, haO, savedAnswerOf, hk,
        qtypeOf, loadedAnswer, Option.some_bind]
      rfl

lemma restoreQuestion_at_self (st : AppState) (sq : SavedQuestion) :
    hmGet? (restoreQuestion st sq).answers sq.number =
      (match restoredAnswer sq with
       | some a => some a
       | none => hmGet? st.answers sq.number) ∧
    hmGetD (restoreQuestion st sq).done_marks sq.number false =
      (if sq.done then true else hmGetD st.done_marks sq.number false) ∧
    hmGetD (restoreQuestion st sq).flags sq.number false =
      (if sq.flagged then true else hmGetD st.flags sq.number false) ∧
    hmGetD (restoreQuestion st sq).hints_revealed sq.number 0 =
      (if sq.hint_used then 1 else hmGetD st.hints_revealed sq.number 0) := by
  unfold restoreQuestion
  cases hra : restoredAnswer sq <;>
    by_cases hd : sq.done = true <;>
      by_cases hf : sq.flagged = true <;>
        by_cases hu : sq.hint_used = true <;>
          simp [hra, hd, hf, hu, hmGet?_insert, hmGetD_insert]

lemma restoreQuestion_at_other (st : AppState) (sq : SavedQuestion) (n : Nat)
    (h : n ≠ sq.number) :
    hmGet? (restoreQuestion st sq).answers n = hmGet? st.answers n ∧
    hmGetD (restoreQuestion st sq).done_marks n false =
      hmGetD st.done_marks n false ∧
    hmGetD (restoreQuestion st sq).flags n false = hmGetD st.flags n false ∧
    hmGetD (restoreQuestion st sq).hints_revealed n 0 =
      hmGetD st.hints_revealed n 0 := by
  unfold restoreQuestion
  cases hra : restoredAnswer sq <;>
    by_cases hd : sq.done = true <;>
      by_cases hf : sq.flagged = true <;>
        by_cases hu : sq.hint_used = true <;>
          simp [hra, hd, hf, hu, hmGet?_insert, hmGetD_insert, h]

lemma restoreQuestion_scalars (st : AppState) (sq : SavedQuestion) :
    (restoreQuestion st sq).current_question = st.current_question ∧
    (restoreQuestion st sq).started_at = st.started_at ∧
    (restoreQuestion st sq).submitted_at = st.submitted_at ∧
    (restoreQuestion st sq).ack_data = st.ack_data := by
  unfold restoreQuestion
  cases restoredAnswer sq <;>
    by_cases hd : sq.done = true <;>
      by_cases hf : sq.flagged = true <;>
        by_cases hu : sq.hint_used = true <;>
          simp [hd, hf, hu]

lemma loadQuestions_scalars (sqs : List SavedQuestion) :
    ∀ st : AppState,
      (loadQuestions sqs st).current_question = st.current_question ∧
      (loadQuestions sqs st).started_at = st.started_at ∧
      (loadQuestions sqs st).submitted_at = st.submitted_at ∧
      (loadQuestions sqs st).ack_data = st.ack_data := by
  induction sqs with
  | nil => intro st; exact ⟨rfl, rfl, rfl, rfl⟩
  | cons sq rest ih =>
    intro st
    have h1 := restoreQuestion_scalars st sq
    have h2 := ih (restoreQuestion st sq)
    exact ⟨h2.1.trans h1.1, h2.2.1.trans h1.2.1, h2.2.2.1.trans h1.2.2.1,
      h2.2.2.2.trans h1.2.2.2⟩

lemma loadQuestions_at_other (sqs : List SavedQuestion) (n : Nat) :
    ∀ st : AppState, (∀ sq ∈ sqs, sq.number ≠ n) →
      hmGet? (loadQuestions sqs st).answers n = hmGet? st.answers n ∧
      hmGetD (loadQuestions sqs st).done_marks n false =
        hmGetD st.done_marks n false ∧
      hmGetD (loadQuestions sqs st).flags n false = hmGetD st.flags n false ∧
      hmGetD (loadQuestions sqs st).hints_revealed n 0 =
        hmGetD st.hints_revealed n 0 := by
  induction sqs with
  | nil => intro st _; exact ⟨rfl, rfl, rfl, rfl⟩
  | cons sq rest ih =>
    intro st h
    have hne : n ≠ sq.number :=
      fun he => (h sq (List.mem_cons_self sq rest)) he.symm
    have h1 := restoreQuestion_at_other st sq n hne
    have h2 := ih (restoreQuestion st sq)
      (fun x hx => h x (List.mem_cons_of_mem sq hx))
    exact ⟨h2.1.trans h1.1, h2.2.1.trans h1.2.1, h2.2.2.1.trans h1.2.2.1,
      h2.2.2.2.trans h1.2.2.2⟩

lemma loadQuestions_round (stO : AppState) :
    ∀ (L : List Question) (st2 : AppState),
      (L.map (fun q => q.number)).Nodup →
      (∀ q ∈ L, match hmGet? stO.answers q.number with
        | some a => answerShapeOk q a = true
        | none => True) →
      (∀ q ∈ L, hmGet? st2.answers q.number = none ∧
        hmGetD st2.done_marks q.number false = false ∧
        hmGetD st2.flags q.number false = false ∧
        hmGetD st2.hints_revealed q.number 0 = 0) →
      ∀ q ∈ L,
        hmGet? (loadQuestions (L.map (buildSavedQuestion stO)) st2).answers
            q.number =
          (hmGet? stO.answers q.number).map (loadedAnswer q.kind q.number) ∧
        hmGetD (loadQuestions (L.map (buildSavedQuestion stO)) st2).done_marks
            q.number false = hmGetD stO.done_marks q.number false ∧
        hmGetD (loadQuestions (L.map (buildSavedQuestion stO)) st2).flags
            q.number false = hmGetD stO.flags q.number false ∧
        hmGetD (loadQuestions (L.map (buildSavedQuestion stO)) st2).hints_revealed
            q.number 0 = min (hmGetD stO.hints_revealed q.number 0) 1 := by
  intro L
  induction L with
  | nil =>
    intro st2 _ _ _ q hq
    exact absurd hq (List.not_mem_nil q)
  | cons q0 rest ih =>
    intro st2 hnd hshape hbase q hq
    have hnd2 : (∀ x ∈ rest, ¬x.number = q0.number) ∧
        (rest.map (fun q => q.number)).Nodup := by
      simpa using hnd
    have hstep : loadQuestions ((q0 :: rest).map (buildSavedQuestion stO)) st2 =
        loadQuestions (rest.map (buildSavedQuestion stO))
          (restoreQuestion st2 (buildSavedQuestion stO q0)) := rfl
    rcases List.mem_cons.mp hq with hq0 | hqr
    · subst hq0
      have hb := hbase q (List.mem_cons_self q rest)
      have hself := restoreQuestion_at_self st2 (buildSavedQuestion stO q)
      have hnum : (buildSavedQuestion stO q).number = q.number := rfl
      rw [hnum] at hself
      have hra := restoredAnswer_built stO q (hshape q (List.mem_cons_self q rest))
      -- values after the first restore step
      have ha1 : hmGet? (restoreQuestion st2 (buildSavedQuestion stO q)).answers
          q.number =
            (hmGet? stO.answers q.number).map (loadedAnswer q.kind q.number) := by
        rw [hself.1, hra]
        cases hget : hmGet? stO.answers q.number with
        | some a => rfl
        | none => exact hb.1
      have hd1 : hmGetD (restoreQuestion st2 (buildSavedQuestion stO q)).done_marks
          q.number false = hmGetD stO.done_marks q.number false := by
        rw [hself.2.1]
        have hde : (buildSavedQuestion stO q).done =
            hmGetD stO.done_marks q.number false := rfl
        rw [hde]
        cases hdv : hmGetD stO.done_marks q.number false
        · rw [hdv] at hde
          rw [if_neg (by simp)]
          exact hb.2.1
        · rw [if_pos rfl]
      have hf1 : hmGetD (restoreQuestion st2 (buildSavedQuestion stO q)).flags
          q.number false = hmGetD stO.flags q.number false := by
        rw [hself.2.2.1]
        have hde : (buildSavedQuestion stO q).flagged =
            hmGetD stO.flags q.number false := rfl
        rw [hde]
        cases hdv : hmGetD stO.flags q.number false
        · rw [if_neg (by simp)]
          exact hb.2.2.1
        · rw [if_pos rfl]
      have hh1 : hmGetD (restoreQuestion st2
            (buildSavedQuestion stO q)).hints_revealed q.number 0 =
          min (hmGetD stO.hints_revealed q.number 0) 1 := by
        rw [hself.2.2.2]
        have hde : (buildSavedQuestion stO q).hint_used =
            decide (hmGetD stO.hints_revealed q.number 0 > 0) := rfl
        rw [hde]
        by_cases hp : hmGetD stO.hints_revealed q.number 0 > 0
        · rw [decide_eq_true hp, if_pos rfl]
          omega
        · rw [decide_eq_false hp, if_neg (by simp)]
          rw [hb.2.2.2]
          omega
      -- the remaining questions never touch q.number
      have hrest : ∀ sq ∈ rest.map (buildSavedQuestion stO), sq.number ≠ q.number := by
        intro sq hsq
        obtain ⟨q2, hq2, hbuild⟩ := List.mem_map.mp hsq
        intro hcontra
        refine hnd2.1 q2 hq2 ?_
        rw [← hcontra, ← hbuild]
        exact rfl
      have hkeep := loadQuestions_at_other (rest.map (buildSavedQuestion stO))
        q.number (restoreQuestion st2 (buildSavedQuestion stO q)) hrest
      rw [hstep]
      exact ⟨hkeep.1.trans ha1, hkeep.2.1.trans hd1, hkeep.2.2.1.trans hf1,
        hkeep.2.2.2.trans hh1⟩
    · -- q sits further down the list
      have hqne : q.number ≠ q0.number := hnd2.1 q hqr
      have hpre := restoreQuestion_at_other st2 (buildSavedQuestion stO q0)
        q.number hqne
      rw [hstep]
      refine ih (restoreQuestion st2 (buildSavedQuestion stO q0)) hnd2.2
        (fun x hx => hshape x (List.mem_cons_of_mem q0 hx)) ?_ q hqr
      intro x hx
      by_cases hxq : x.number = q0.number
      · -- x.number cannot equal q0.number, both sit in rest with Nodup
        exact absurd hxq (hnd2.1 x hx)
      · have hb := hbase x (List.mem_cons_of_mem q0 hx)
        have hx2 := restoreQuestion_at_other st2 (buildSavedQuestion stO q0)
          x.number hxq
        exact ⟨hx2.1.trans hb.1, hx2.2.1.trans hb.2.1, hx2.2.2.1.trans hb.2.2.1,
          hx2.2.2.2.trans hb.2.2.2⟩

lemma load_state_built (st : AppState)
    (hlt : st.current_question < st.quiz.questions.length)
    (hsub : st.submitted_at ≠ some "unknown")
    (hack : match st.ack_data with
      | some a => a.name.isEmpty = false
      | none => True) :
    load_state (build_answers_doc st) (AppState.new st.quiz) =
      Except.ok (loadQuestions (st.quiz.questions.map (buildSavedQuestion st))
        { AppState.new st.quiz with
          current_question := st.current_question,
          submitted_at := st.submitted_at,
          started_at := st.started_at,
          ack_data := st.ack_data }) := by
  simp only [load_state, build_answers_doc, AppState.new]
  rw [if_neg (fun h => h rfl), if_pos hlt]
  cases hsa : st.submitted_at with
  | none =>
    simp only [Option.getD_none]
    rw [if_neg (fun h => h rfl)]
    cases hst : st.started_at with
    | none =>
      cases hackv : st.ack_data with
      | none => simp [hsa, hst, hackv]
      | some a =>
        rw [hackv] at hack
        simp [hsa, hst, hackv, hack]
    | some s =>
      cases hackv : st.ack_data with
      | none => simp [hsa, hst, hackv]
      | some a =>
        rw [hackv] at hack
        simp [hsa, hst, hackv, hack]
  | some v =>
    have hv : v ≠ "unknown" := fun he => hsub (by rw [hsa, he])
    simp only [Option.getD_some]
    rw [if_pos hv]
    cases hst : st.started_at with
    | none =>
      cases hackv : st.ack_data with
      | none => simp [hsa, hst, hackv]
      | some a =>
        rw [hackv] at hack
        simp [hsa, hst, hackv, hack]
    | some s =>
      cases hackv : st.ack_data with
      | none => simp [hsa, hst, hackv]
      | some a =>
        rw [hackv] at hack
        simp [hsa, hst, hackv, hack]

/-- C2 amended: on a well-formed session, save then load reproduces the
navigation position, timestamps, acknowledgment, and — per question —
the flag and done mark exactly; the stored answer comes back as its
`loadedAnswer` image (exact for single/multi/short, the literal-block
normalization for a long text, the `files/q<n>/<name>` rewrite for file
paths), and the hint-reveal count survives only as used/unused, any
positive count loading back as 1. -/
theorem C2_roundtrip_amended (st : AppState) (hWF : sessionWF st) :
    ∃ st2, load_state (build_answers_doc st) (AppState.new st.quiz) =
        Except.ok st2 ∧
      st2.current_question = st.current_question ∧
      st2.started_at = st.started_at ∧
      st2.submitted_at = st.submitted_at ∧
      st2.ack_data = st.ack_data ∧
      ∀ q ∈ st.quiz.questions,
        hmGet? st2.answers q.number =
          (hmGet? st.answers q.number).map (loadedAnswer q.kind q.number) ∧
        hmGetD st2.done_marks q.number false =
          hmGetD st.done_marks q.number false ∧
        hmGetD st2.flags q.number false = hmGetD st.flags q.number false ∧
        hmGetD st2.hints_revealed q.number 0 =
          min (hmGetD st.hints_revealed q.number 0) 1 := by
  obtain ⟨hlt, hsub, hack, hnd, hshape⟩ := hWF
  refine ⟨_, load_state_built st hlt hsub hack, ?_, ?_, ?_, ?_, ?_⟩
  · exact (loadQuestions_scalars _ _).1
  · exact (loadQuestions_scalars _ _).2.1
  · exact (loadQuestions_scalars _ _).2.2.1
  · exact (loadQuestions_scalars _ _).2.2.2
  · exact loadQuestions_round st st.quiz.questions
      { AppState.new st.quiz with
        current_question := st.current_question,
        submitted_at := st.submitted_at,
        started_at := st.started_at,
        ack_data := st.ack_data }
      hnd hshape (fun q _ => ⟨rfl, rfl, rfl, rfl⟩)

/-- A session that revealed the short question's two hints. -/
def stHints : AppState :=
  { AppState.new quizA with hints_revealed := [(1, 2)] }

/-- C2 counterexample: a hint-reveal count of 2 does not survive the
round trip — the loaded session reports 1, so the snapshot does not
reproduce every Session field exactly. -/
theorem C2_counterexample :
    ((load_state (build_answers_doc stHints) (AppState.new quizA)).map
        (fun s2 => hmGetD s2.hints_revealed 1 0)) = Except.ok 1 ∧
      hmGetD stHints.hints_revealed 1 0 = 2 := by
  decide

/-- A well-formed session exercising answers, marks, hints and ack,
including a long answer whose text gains a trailing newline on load. -/
def stFull : AppState :=
  { AppState.new quizA with
    current_question := 1,
    started_at := some "2026-01-01T09:00:00+00:00",
    ack_data := some { name := "Ada", agreed_at := "t0", text_hash := "h0" },
    answers := [(1, { answer_type := "short", selected := none,
                      text := some "hello", files := none }),
                (2, { answer_type := "multi", selected := some ["b"],
                      text := none, files := none }),
                (3, { answer_type := "long", selected := none,
                      text := some "line one\nline two", files := none })],
    done_marks := [(1, true)],
    flags := [(2, true)],
    hints_revealed := [(1, 2)] }

/-- Witness for C2: the amended round trip applied to the concrete
session `stFull`. -/
theorem C2_roundtrip_witness :
    sessionWF stFull ∧
      (∃ st2, load_state (build_answers_doc stFull) (AppState.new stFull.quiz) =
          Except.ok st2 ∧
        st2.current_question = stFull.current_question ∧
        st2.started_at = stFull.started_at ∧
        st2.submitted_at = stFull.submitted_at ∧
        st2.ack_data = stFull.ack_data ∧
        ∀ q ∈ stFull.quiz.questions,
          hmGet? st2.answers q.number =
            (hmGet? stFull.answers q.number).map (loadedAnswer q.kind q.number) ∧
          hmGetD st2.done_marks q.number false =
            hmGetD stFull.done_marks q.number false ∧
          hmGetD st2.flags q.number false = hmGetD stFull.flags q.number false ∧
          hmGetD st2.hints_revealed q.number 0 =
            min (hmGetD stFull.hints_revealed q.number 0) 1) := by
  have hWF : sessionWF stFull := by
    refine ⟨by decide, by decide, ?_, by decide, ?_⟩
    · exact (by decide : ("Ada" : String).isEmpty = false)
    · intro q hq
      fin_cases hq
      · exact (by decide : answerShapeOk qShort
          { answer_type := "short", selected := none, text := some "hello",
            files := none } = true)
      · exact (by decide : answerShapeOk qMulti
          { answer_type := "multi", selected := some ["b"], text := none,
            files := none } = true)
      · exact (by decide : answerShapeOk qLong
          { answer_type := "long", selected := none,
            text := some "line one\nline two", files := none } = true)
  exact ⟨hWF, C2_roundtrip_amended stFull hWF⟩

end Termquiz
